import Mathlib

/-!
Verification of the pia-mcp-local dispatch-and-forwarding layer.

A shallow embedding of the PIA MCP server adapter:
`server.py` (`call_tool` dispatch), `tools/search_tools.py`
(`_forward_to_remote`), `config.py` (`Settings.API_KEY` resolution from
command-line arguments), and `prompts/handlers.py` (`get_prompt`).

JSON-compatible values are modelled by the inductive type `Json`
(objects as ordered association lists, mirroring Python dict insertion
order; numbers restricted to the integer fragment).  The remote HTTP
endpoint is modelled by an oracle `HttpResult` describing what the
single POST performed by `_forward_to_remote` yields.
-/

/-- JSON-compatible values as produced by `response.json()` / `json.loads`.
Objects are ordered association lists (Python dicts preserve insertion
order); numbers cover the integer fragment. -/
inductive Json where
  | null : Json
  | bool (b : Bool) : Json
  | num (n : Int) : Json
  | str (s : String) : Json
  | arr (xs : List Json) : Json
  | obj (fields : List (String × Json)) : Json

/-- Python dict key lookup on the association-list model (`fields[k]`
for a dict with distinct keys). -/
def lookupField (fields : List (String × Json)) (k : String) : Option Json :=
  match fields with
  | [] => none
  | (k', v) :: rest => if k' = k then some v else lookupField rest k

/-- Python type name of a JSON-compatible value, as it appears in
`AttributeError` / `TypeError` messages. -/
def pyType : Json → String
  | .null => "NoneType"
  | .bool _ => "bool"
  | .num _ => "int"
  | .str _ => "str"
  | .arr _ => "list"
  | .obj _ => "dict"

/-- `Settings._get_api_key_from_args`: scan of `sys.argv[1:]` for the
value following the first `--api-key` occurrence (config.py lines 26-53). -/
def getApiKeyFromArgs (args : List String) : Option String :=
  if args.length < 2 then none
  else
    match argIndexOf args 0 with
    | none => none
    | some i =>
      if i + 1 ≥ args.length then none
      else args.get? (i + 1)
where
  /-- `args.index("--api-key")`: index of the first occurrence, if any. -/
  argIndexOf : List String → Nat → Option Nat
    | [], _ => none
    | a :: rest, i => if a = "--api-key" then some i else argIndexOf rest (i + 1)

/-- The message of the `ValueError` raised by `Settings.API_KEY` when no
key is available (config.py line 60). -/
def apiKeyErrorMsg : String :=
  "PIA API key is required. Please provide --api-key argument."

/-- `Settings.API_KEY` (config.py lines 55-61): resolve the key from the
command-line arguments; `if not api_key` (absent or empty) raises
`ValueError`, modelled as `Except.error`. -/
def API_KEY (args : List String) : Except String String :=
  match getApiKeyFromArgs args with
  | none => .error apiKeyErrorMsg
  | some k => if k = "" then .error apiKeyErrorMsg else .ok k

/-- The JSON-RPC payload built by `_forward_to_remote`
(search_tools.py lines 527-532). -/
def buildPayload (toolName : String) (arguments : List (String × Json)) : Json :=
  .obj [("jsonrpc", .str "2.0"),
        ("id", .num 1),
        ("method", .str "tools/call"),
        ("params", .obj [("name", .str toolName),
                         ("arguments", .obj arguments)])]

/-- Outcome of the single `client.post` + `raise_for_status` +
`response.json()` sequence, as an oracle:
`success` = 2xx with a JSON object body (the JSON-RPC response shape),
`statusError` = `httpx.HTTPStatusError` with status code and body text,
`exn` = any other exception (connection failure, timeout, JSON decode
error, ...) with its message. -/
inductive HttpResult where
  | success (body : List (String × Json)) : HttpResult
  | statusError (code : Nat) (text : String) : HttpResult
  | exn (msg : String) : HttpResult

/-- Result of one adapter invocation: the JSON payloads POSTed to the
remote endpoint during the call, and the returned `TextContent` blocks
(each block is its `text` field; all blocks have `type="text"`). -/
structure ForwardTrace where
  networkCalls : List Json
  result : List String

/-- Decimal digits of a natural number, most significant first, with a
fuel bound (any `fuel > n` is sufficient). -/
def natDigitsAux : Nat → Nat → List Char
  | 0, _ => []
  | fuel + 1, n =>
    if n < 10 then [Nat.digitChar n]
    else natDigitsAux fuel (n / 10) ++ [Nat.digitChar (n % 10)]

/-- Decimal digits of a natural number, most significant first
(Python `int.__repr__` for non-negative values). -/
def natDigitsChars (n : Nat) : List Char := natDigitsAux (n + 1) n

/-- Python `int.__repr__`: canonical decimal, `-` sign for negatives. -/
def intReprChars (n : Int) : List Char :=
  if n < 0 then '-' :: natDigitsChars n.natAbs else natDigitsChars n.toNat

/-- One character of `json.dumps` string escaping with
`ensure_ascii=False`: escape `"`, `\`, and control characters (named
escapes for the common ones, `\u00xx` otherwise); everything else —
including non-ASCII — is emitted verbatim. -/
def escCharL (c : Char) : List Char :=
  if c = '"' then ['\\', '"']
  else if c = '\\' then ['\\', '\\']
  else if c = '\n' then ['\\', 'n']
  else if c = '\r' then ['\\', 'r']
  else if c = '\t' then ['\\', 't']
  else if c = '\x08' then ['\\', 'b']
  else if c = '\x0c' then ['\\', 'f']
  else if c.toNat < 0x20 then
    ['\\', 'u', '0', '0', Nat.digitChar (c.toNat / 16), Nat.digitChar (c.toNat % 16)]
  else [c]

/-- Escape every character of a string body. -/
def escList : List Char → List Char
  | [] => []
  | c :: cs => escCharL c ++ escList cs

/-- A JSON string literal: quote, escaped body, quote. -/
def encStrL (s : String) : List Char := '"' :: (escList s.data ++ ['"'])

/-- Newline followed by the indentation of depth `d`
(`json.dumps(..., indent=2)` puts `2*d` spaces per nesting level). -/
def nlInd (d : Nat) : List Char := '\n' :: List.replicate (2 * d) ' '

mutual

/-- `json.dumps(v, indent=2, ensure_ascii=False)` at nesting depth `d`,
as a character list. -/
def dumpsL : Json → Nat → List Char
  | .null, _ => ['n', 'u', 'l', 'l']
  | .bool true, _ => ['t', 'r', 'u', 'e']
  | .bool false, _ => ['f', 'a', 'l', 's', 'e']
  | .num n, _ => intReprChars n
  | .str s, _ => encStrL s
  | .arr [], _ => ['[', ']']
  | .arr (x :: xs), d =>
    '[' :: (nlInd (d + 1) ++ dumpsL x (d + 1) ++ itemsRest xs (d + 1) ++ nlInd d ++ [']'])
  | .obj [], _ => ['\x7b', '\x7d']
  | .obj (f :: fs), d =>
    '\x7b' :: (nlInd (d + 1) ++ encStrL f.1 ++ ':' :: ' ' :: dumpsL f.2 (d + 1)
      ++ fieldsRest fs (d + 1) ++ nlInd d ++ ['\x7d'])

/-- The remaining items of a non-empty array: `,` + newline + indent +
item, repeated. -/
def itemsRest : List Json → Nat → List Char
  | [], _ => []
  | x :: xs, d => ',' :: (nlInd d ++ dumpsL x d ++ itemsRest xs d)

/-- The remaining entries of a non-empty object: `,` + newline + indent +
key + `: ` + value, repeated. -/
def fieldsRest : List (String × Json) → Nat → List Char
  | [], _ => []
  | f :: fs, d =>
    ',' :: (nlInd d ++ encStrL f.1 ++ ':' :: ' ' :: dumpsL f.2 d ++ fieldsRest fs d)

end

/-- `json.dumps(v, indent=2, ensure_ascii=False)`
(search_tools.py lines 571-573). -/
def jsonDumps (v : Json) : String := String.mk (dumpsL v 0)

/-- Python `repr` of a string (single-quoted form; printable characters
verbatim). -/
def pyReprStr (s : String) : String :=
  "'" ++ String.mk (s.data.foldr (fun c acc =>
    if c = '\\' then '\\' :: '\\' :: acc
    else if c = '\x27' then '\\' :: '\x27' :: acc
    else if c = '\n' then '\\' :: 'n' :: acc
    else if c = '\r' then '\\' :: 'r' :: acc
    else if c = '\t' then '\\' :: 't' :: acc
    else c :: acc) []) ++ "'"

mutual

/-- Python `repr` of a JSON-compatible value. -/
def pyRepr : Json → String
  | .null => "None"
  | .bool true => "True"
  | .bool false => "False"
  | .num n => String.mk (intReprChars n)
  | .str s => pyReprStr s
  | .arr xs => "[" ++ pyReprList xs ++ "]"
  | .obj fs => "\x7b" ++ pyReprFields fs ++ "\x7d"

/-- `repr` of list elements, comma-space separated. -/
def pyReprList : List Json → String
  | [] => ""
  | [x] => pyRepr x
  | x :: y :: xs => pyRepr x ++ ", " ++ pyReprList (y :: xs)

/-- `repr` of dict entries, comma-space separated. -/
def pyReprFields : List (String × Json) → String
  | [] => ""
  | [f] => pyReprStr f.1 ++ ": " ++ pyRepr f.2
  | f :: g :: fs => pyReprStr f.1 ++ ": " ++ pyRepr f.2 ++ ", " ++ pyReprFields (g :: fs)

end

/-- Python `str` of a JSON-compatible value, as used by f-string
interpolation (`str` of a string is itself; containers via `repr`). -/
def pyStrJson : Json → String
  | .str s => s
  | v => pyRepr v

/-- `result["error"].get("message", "Unknown error")` rendered through
the f-string (search_tools.py lines 565-566). -/
def errorMessageText (ef : List (String × Json)) : String :=
  pyStrJson ((lookupField ef "message").getD (.str "Unknown error"))

/-- Classification of a 2xx JSON body by `_forward_to_remote`
(search_tools.py lines 562-578): an `error` member wins and is rendered
as `API Error: ...` (a non-dict `error` value makes `.get` raise
`AttributeError`, caught by the outer handler); otherwise a `result`
member is pretty-printed; otherwise the literal no-results text. -/
def classifyBody (fields : List (String × Json)) : List String :=
  match lookupField fields "error" with
  | some (.obj ef) => ["API Error: " ++ errorMessageText ef]
  | some e => ["Error: '" ++ pyType e ++ "' object has no attribute 'get'"]
  | none =>
    match lookupField fields "result" with
    | some r => [jsonDumps r]
    | none => ["No results returned from API"]

/-- `_forward_to_remote(tool_name, arguments)`
(search_tools.py lines 521-590), parameterised by the command-line
arguments feeding `Settings.API_KEY` and by the oracle describing the
remote endpoint's behaviour.  The trace records every payload POSTed. -/
def forwardToRemote (toolName : String) (arguments : List (String × Json))
    (cliArgs : List String) (remote : HttpResult) : ForwardTrace :=
  match API_KEY cliArgs with
  | .error e =>
    ⟨[], ["Error: " ++ e ++ " Configure API key in MCP server settings."]⟩
  | .ok _ =>
    let payload := buildPayload toolName arguments
    match remote with
    | .success fields => ⟨[payload], classifyBody fields⟩
    | .statusError code text =>
      ⟨[payload], ["HTTP Error " ++ toString code ++ ": " ++ text]⟩
    | .exn msg => ⟨[payload], ["Error: " ++ msg]⟩

/-- The registered tool names, in the order of `call_tool`'s dispatch
chain (server.py lines 91-114). -/
def toolNames : List String :=
  ["pia_search_content", "pia_search_content_facets", "pia_search_titles",
   "pia_search_titles_facets", "pia_search_content_gao", "pia_search_content_oig",
   "pia_search_content_crs", "pia_search_content_doj", "pia_search_content_congress",
   "pia_search_content_executive_orders", "search", "fetch"]

/-- `call_tool(name, arguments)` (server.py lines 86-119): the elif
dispatch chain; each handler forwards to `_forward_to_remote` under the
same name; unknown names yield the handled `Unknown tool` text. -/
def call_tool (name : String) (arguments : List (String × Json))
    (cliArgs : List String) (remote : HttpResult) : ForwardTrace :=
  if name = "pia_search_content" then
    forwardToRemote "pia_search_content" arguments cliArgs remote
  else if name = "pia_search_content_facets" then
    forwardToRemote "pia_search_content_facets" arguments cliArgs remote
  else if name = "pia_search_titles" then
    forwardToRemote "pia_search_titles" arguments cliArgs remote
  else if name = "pia_search_titles_facets" then
    forwardToRemote "pia_search_titles_facets" arguments cliArgs remote
  else if name = "pia_search_content_gao" then
    forwardToRemote "pia_search_content_gao" arguments cliArgs remote
  else if name = "pia_search_content_oig" then
    forwardToRemote "pia_search_content_oig" arguments cliArgs remote
  else if name = "pia_search_content_crs" then
    forwardToRemote "pia_search_content_crs" arguments cliArgs remote
  else if name = "pia_search_content_doj" then
    forwardToRemote "pia_search_content_doj" arguments cliArgs remote
  else if name = "pia_search_content_congress" then
    forwardToRemote "pia_search_content_congress" arguments cliArgs remote
  else if name = "pia_search_content_executive_orders" then
    forwardToRemote "pia_search_content_executive_orders" arguments cliArgs remote
  else if name = "search" then
    forwardToRemote "search" arguments cliArgs remote
  else if name = "fetch" then
    forwardToRemote "fetch" arguments cliArgs remote
  else
    ⟨[], ["Error: Unknown tool " ++ name]⟩

/-- The static template returned by `_generate_summarization_guidance`
(prompts/handlers.py). -/
def generate_summarization_guidance : String :=
  "You are an assistant that summarizes information **only** from the provided search results.\n\nYour task:\n1. **Only include facts that appear in the provided search results.**\n   - Do NOT use prior knowledge or make assumptions.\n   - If a fact is not in the search results, exclude it entirely.\n\n2. **Every factual statement must have at least one inline citation in the format**: [n]\n   - Where n matches the numbered source in the References section.\n   - Multiple citations are allowed, e.g., [1][3].\n\n3. **References section format:**\n   - Numbered list matching the inline citations.\n   - **Each reference on a separate line** in the format: [n] Document Title — Page X — Source Name — URL\n   - Each reference must include:\n     - **Document title**\n     - **Page number** (or \"n/a\" if page not given in source)\n     - **Source name** (publisher, organization, or site)\n     - **URL** — exactly the URL given in the search results.\n\n4. **Output format:**\n   - A concise **Summary** section with inline citations [n].\n   - A **References** section in the required format.\n\n5. **Style guidelines:**\n   - Be objective and factual.\n   - No speculation, filler, or unrelated information.\n   - Use clear, precise language.\n   - Organize logically (group related facts together).\n   - Ensure all facts have at least one supporting citation.\n\nInput to use:\n<SEARCH_RESULTS>\n\nOutput template:\n---\nSummary:\n<Your fact-based summary here with inline [n] citations>\n\nReferences:\n[1] Document Title — Page X — Source Name — URL\n[2] Document Title — Page X — Source Name — URL\n...\n---\n\nRemember:\n- Do not invent URLs — copy exactly from the provided search results.\n- Do not merge facts without maintaining accurate citations.\n- If you can't find enough information for a point, omit it entirely."

/-- The static template returned by `_generate_content_search_guidance`
(prompts/handlers.py). -/
def generate_content_search_guidance : String :=
  "You can perform searches using the PIA Search tools with or without filters.\n\n**Search Tool Selection**:\n- Use `pia_search_content` and `pia_search_content_facets` for searching document content and recommendations\n- Use `pia_search_titles` and `pia_search_titles_facets` to find document titles and discover available documents\n- To find what document titles are available, you can call the pia_search_titles tool and its pia_search_titles_facets to see what fields you can filter with. If the user is obviously referencing a specific document, you can filter this tool using SourceDocumentTitle\n\n**General rules**:\n- Run an **unfiltered search** by default if no filter criteria are mentioned in the user's request.\n- If the user's request includes any specific filter criteria (e.g., agency name, year, category):\n  1. Call `pia_search_content_facets` or `pia_search_titles_facets` once to discover the filterable field names and allowed values.\n  2. Use these to build a valid OData filter expression.\n  3. Call the appropriate search tool with the filter applied.\n\n**Process for applying filters**:\n\n1. **Detect filter intent**:\n   - Examine the user's query for references to agencies, dates, categories, or other filterable attributes.\n   - If such references are present, treat the search as **filtered**.\n\n2. **Discover filterable fields and values** (only if filtering):\n   - Call the `pia_search_content_facets` or `pia_search_titles_facets` tool (one time per session unless filters change).\n   - Review the output to see:\n     - Field names that support filtering.\n     - Possible values for each field.\n\n3. **Build the filter expression**:\n   - Use **only field names and values** returned by the facets tools.\n   - Construct the filter in **OData syntax**:\n     - `data_source eq 'GAO'`\n     - `(data_source eq 'GAO' or data_source eq 'CIGIE') and year ge 2020`\n   - Use correct operators: `eq`, `ne`, `gt`, `ge`, `lt`, `le`, `and`, `or`.\n   - Wrap string values in single quotes `'value'`.\n\n4. **Execute the filtered search**:\n   - Pass the OData filter string to the search tool's `filter` parameter.\n   - Example:\n     ```\n     \x7b\n       \"query\": \"fraud detection\",\n       \"filter\": \"data_source eq 'GAO' and year ge 2021\"\n     \x7d\n     ```\n\n5. **Fallback to unfiltered search**:\n   - If the filtered search returns no results **and** you haven't yet run an unfiltered search for this query:\n     - Run the same query without the filter.\n     - Inform the user you are showing unfiltered results because no matches were found with the filter.\n\n6. **Validation**:\n   - Never use a field or value not provided by the facets tools.\n   - If the user requests a filter that doesn't exist in the facets, explain it's not available and offer an unfiltered search instead.\n\n**Goal**:\n- Default to unfiltered search unless filter criteria are clearly present in the query.\n- Always validate filter fields/values before applying them.\n- Fall back to unfiltered if filtering produces zero results and it hasn't already been run."

/-- The static template returned by `_generate_titles_search_guidance`
(prompts/handlers.py). -/
def generate_titles_search_guidance : String :=
  "You can search document titles using the PIA title search tools to discover what documents are available.\n\n**Title Search Tool Selection**:\n- Use `pia_search_titles` to search for document titles only (not content)\n- Use `pia_search_titles_facets` to see what fields you can filter with for title searches\n- This is ideal for finding specific documents or discovering available documents\n\n**When to use title search**:\n- User asks \"What documents are available?\" or \"Show me all documents\"\n- User references a specific document title or wants to find documents by title\n- User wants to browse or discover available documents\n\n**General rules**:\n- Run an **unfiltered title search** by default if no filter criteria are mentioned\n- If the user's request includes any specific filter criteria (e.g., agency name, document type):\n  1. Call `pia_search_titles_facets` once to discover the filterable field names and allowed values\n  2. Use these to build a valid OData filter expression\n  3. Call `pia_search_titles` with the filter applied\n\n**Process for applying filters**:\n\n1. **Detect filter intent**:\n   - Examine the user's query for references to agencies, document types, dates, or other filterable attributes\n   - If such references are present, treat the search as **filtered**\n\n2. **Discover filterable fields and values** (only if filtering):\n   - Call the `pia_search_titles_facets` tool (one time per session unless filters change)\n   - Review the output to see:\n     - Field names that support filtering\n     - Possible values for each field\n\n3. **Build the filter expression**:\n   - Use **only field names and values** returned by `pia_search_titles_facets`\n   - Construct the filter in **OData syntax**:\n     - `SourceDocumentDataSource eq 'GAO'`\n     - `SourceDocumentTitle contains 'fraud'`\n     - `(SourceDocumentDataSource eq 'GAO' or SourceDocumentDataSource eq 'Oversight.gov') and SourceDocumentIsRecDoc eq 'Yes'`\n   - Use correct operators: `eq`, `ne`, `gt`, `ge`, `lt`, `le`, `and`, `or`, `contains`\n   - Wrap string values in single quotes `'value'`\n\n4. **Execute the filtered title search**:\n   - Pass the OData filter string to `pia_search_titles` tool's `filter` parameter\n   - Example:\n     ```\n     \x7b\n       \"query\": \"audit report\",\n       \"filter\": \"SourceDocumentDataSource eq 'GAO' and SourceDocumentTitle contains 'fraud'\"\n     \x7d\n     ```\n\n5. **Fallback to unfiltered search**:\n   - If the filtered search returns no results and you haven't yet run an unfiltered search:\n     - Run the same query without the filter\n     - Inform the user you are showing unfiltered results\n\n6. **Validation**:\n   - Never use a field or value not provided by `pia_search_titles_facets`\n   - If the user requests a filter that doesn't exist, explain it's not available and offer an unfiltered search\n\n**Goal**:\n- Use title search to discover what documents are available\n- Help users find specific documents by title or browse available documents\n- Always validate filter fields/values before applying them"

/-- The static template returned by `_generate_recommendations_guidance`
(prompts/handlers.py). -/
def generate_recommendations_guidance : String :=
  "You can search and analyze oversight recommendations data using the PIA Search tools.\n\n**Understanding Recommendations Data**:\n- Recommendations are identified as records where `SourceDocumentDataSet eq 'Open Recommendations'`\n- Some recommendations are closed, as indicated by `RecStatus eq 'Closed'`\n- Users might refer to these as \"Recommendations\" or \"Recs\"\n\n**Search Strategy for Recommendations**:\n\n1. **For numerical questions about recommendations** (e.g., \"How many recommendations are there?\", \"Show me stats by agency\"):\n   - Use `pia_search_content_facets` with **no query string** (empty query)\n   - Apply filter: `SourceDocumentDataSet eq 'Open Recommendations'`\n   - This gives you recommendations broken down by various dimensions you can analyze\n\n2. **For specific recommendation information**:\n   - Use `pia_search_content` with appropriate filters to find specific recommendations\n   - Always include: `SourceDocumentDataSet eq 'Open Recommendations'`\n   - Add additional filters as needed (agency, status, etc.)\n   - Results should provide links to the full recommendation details\n\n3. **Example filter patterns**:\n   - All open recommendations: `SourceDocumentDataSet eq 'Open Recommendations'`\n   - Only closed recommendations: `SourceDocumentDataSet eq 'Open Recommendations' and RecStatus eq 'Closed'`\n   - Recommendations from specific agency: `SourceDocumentDataSet eq 'Open Recommendations' and [AgencyField] eq 'AgencyName'`\n\n**Additional Resources**:\n- For overall questions about how PIA ingests recommendations, refer users to the FAQ: https://programintegrity.org/spotlight-faq/\n- You can also refer users to PIA's [Recommendations Spotlight](https://programintegrity.org/rec-spotlight/) for more ways to access recommendations data\n\n**Process**:\n1. Determine if the question is numerical/statistical or about specific recommendations\n2. Use `pia_search_content_facets` for stats, `pia_search_content` for specific information\n3. Always filter by `SourceDocumentDataSet eq 'Open Recommendations'`\n4. Consider whether to include/exclude closed recommendations based on the question\n5. Provide links from search results when available\n6. Direct users to additional resources when appropriate"

/-- `AVAILABLE_PROMPTS` (prompts/handlers.py lines 10-31): the prompt
catalog as (name, description) pairs; every entry declares no arguments. -/
def AVAILABLE_PROMPTS : List (String × String) :=
  [("summarization_guidance",
    "Provides guidance on how to summarize information from PIA search results with proper citations"),
   ("content_search_guidance",
    "Provides guidance on how to perform PIA content searches with or without filters"),
   ("titles_search_guidance",
    "Provides guidance on how to search PIA document titles to discover available documents"),
   ("recommendations_guidance",
    "Provides guidance for questions about oversight recommendations data and how to search for recommendation information")]

/-- The `GetPromptResult` produced by `get_prompt`: the prompt
description and the messages, each a (role, text) pair. -/
structure GetPromptResult where
  description : String
  messages : List (String × String)

/-- Python `repr` of a `Dict[str, str]` argument bag, as interpolated by
the fallback f-string of `get_prompt` (unreachable for catalog names). -/
def pyReprStrDict (args : List (String × String)) : String :=
  "\x7b" ++ go args ++ "\x7d"
where
  go : List (String × String) → String
    | [] => ""
    | [(k, v)] => pyReprStr k ++ ": " ++ pyReprStr v
    | (k, v) :: rest => pyReprStr k ++ ": " ++ pyReprStr v ++ ", " ++ go rest

/-- `get_prompt(name, arguments)` (prompts/handlers.py lines 60-94):
look the name up in `AVAILABLE_PROMPTS`; an unknown name raises
`ValueError` (modelled as `Except.error` carrying the exception
message); a known name returns the corresponding static template as a
single user message. -/
def get_prompt (name : String) (arguments : List (String × String)) :
    Except String GetPromptResult :=
  match lookupPrompt AVAILABLE_PROMPTS with
  | none => .error ("Prompt '" ++ name ++ "' not found")
  | some desc =>
    let content :=
      if name = "summarization_guidance" then generate_summarization_guidance
      else if name = "content_search_guidance" then generate_content_search_guidance
      else if name = "titles_search_guidance" then generate_titles_search_guidance
      else if name = "recommendations_guidance" then generate_recommendations_guidance
      else "Prompt template for " ++ name ++
        " - implement specific logic based on arguments: " ++ pyReprStrDict arguments
    .ok ⟨desc, [("user", content)]⟩
where
  /-- The linear scan over `AVAILABLE_PROMPTS` for the first entry whose
  name matches. -/
  lookupPrompt : List (String × String) → Option String
    | [] => none
    | (n, d) :: rest => if n = name then some d else lookupPrompt rest

example : (get_prompt "summarization_guidance" []).isOk = true := rfl
example : (get_prompt "recommendations_guidance" []).isOk = true := rfl
example : get_prompt "search_guidance" [] = .error "Prompt 'search_guidance' not found" := rfl

/-- JSON whitespace (`json.decoder.WHITESPACE_STR`). -/
def wsChar (c : Char) : Bool := c = ' ' || c = '\t' || c = '\n' || c = '\r'

/-- Skip leading JSON whitespace. -/
def skipWs : List Char → List Char
  | [] => []
  | c :: cs => if wsChar c then skipWs cs else c :: cs

/-- Value of a hexadecimal digit. -/
def hexVal? (c : Char) : Option Nat :=
  if '0' ≤ c ∧ c ≤ '9' then some (c.toNat - '0'.toNat)
  else if 'a' ≤ c ∧ c ≤ 'f' then some (c.toNat - 'a'.toNat + 10)
  else if 'A' ≤ c ∧ c ≤ 'F' then some (c.toNat - 'A'.toNat + 10)
  else none

/-- `json.decoder.BACKSLASH`: the two-character escapes. -/
def escapeOf : Char → Option Char
  | '"' => some '"'
  | '\\' => some '\\'
  | '/' => some '/'
  | 'b' => some '\x08'
  | 'f' => some '\x0c'
  | 'n' => some '\n'
  | 'r' => some '\r'
  | 't' => some '\t'
  | _ => none

/-- Four hexadecimal digits as a number (`int(s, 16)` on a 4-character
slice, as in the `\uXXXX` handling of `json.decoder`). -/
def hexQuad (h1 h2 h3 h4 : Char) : Option Nat :=
  (hexVal? h1).bind fun a => (hexVal? h2).bind fun b =>
    (hexVal? h3).bind fun c => (hexVal? h4).bind fun d =>
      some (((a * 16 + b) * 16 + c) * 16 + d)

mutual

/-- Parse the body of a JSON string literal after the opening quote
(`json.decoder.py_scanstring`, strict mode): unescaped control
characters are rejected. -/
def parseStrBody : List Char → Option (List Char × List Char)
  | [] => none
  | c :: cs =>
    if c = '"' then some ([], cs)
    else if c = '\\' then parseEscSeq cs
    else if c.toNat < 0x20 then none
    else (parseStrBody cs).map fun p => (c :: p.1, p.2)

/-- Parse what follows a backslash inside a string literal: a `\uXXXX`
scalar value (surrogates are outside this embedding's `Char`-based
strings) or a two-character escape. -/
def parseEscSeq : List Char → Option (List Char × List Char)
  | 'u' :: h1 :: h2 :: h3 :: h4 :: cs2 =>
    (hexQuad h1 h2 h3 h4).bind fun n =>
      if n < 0xd800 then
        (parseStrBody cs2).map fun p => (Char.ofNat n :: p.1, p.2)
      else none
  | e :: cs2 =>
    (escapeOf e).bind fun c => (parseStrBody cs2).map fun p => (c :: p.1, p.2)
  | [] => none

end

/-- Longest prefix of decimal digits. -/
def takeDigits : List Char → List Char × List Char
  | [] => ([], [])
  | c :: cs =>
    if '0' ≤ c ∧ c ≤ '9' then
      let p := takeDigits cs
      (c :: p.1, p.2)
    else ([], c :: cs)

/-- Accumulate decimal digits into a natural number. -/
def digitsToNat (acc : Nat) : List Char → Nat
  | [] => acc
  | c :: cs => digitsToNat (acc * 10 + (c.toNat - '0'.toNat)) cs

/-- The integer part of the JSON number grammar
(`json.scanner.NUMBER_RE`): `0`, or a nonzero digit followed by digits;
a leading zero is never followed by more digits. -/
def parseNatNum : List Char → Option (Nat × List Char)
  | [] => none
  | c :: cs =>
    if c = '0' then some (0, cs)
    else if '1' ≤ c ∧ c ≤ '9' then
      let p := takeDigits cs
      some (digitsToNat (c.toNat - '0'.toNat) p.1, p.2)
    else none

/-- A JSON number restricted to the integer fragment of this embedding:
an optional minus sign and an integer part, not followed by a fraction
or exponent (those parse as Python floats, outside the model). -/
def parseNum (cs : List Char) : Option (Json × List Char) :=
  match cs with
  | c :: cs2 =>
    if c = '-' then (parseNatNum cs2).bind fun p => noFloatTail (-(p.1 : Int)) p.2
    else (parseNatNum (c :: cs2)).bind fun p => noFloatTail (p.1 : Int) p.2
  | [] => none
where
  /-- Reject a following `.`/`e`/`E` (a float literal). -/
  noFloatTail (v : Int) (r : List Char) : Option (Json × List Char) :=
    match r with
    | c :: _ => if c = '.' ∨ c = 'e' ∨ c = 'E' then none else some (.num v, r)
    | [] => some (.num v, r)

mutual

/-- `json.scanner.py_make_scanner`'s `_scan_once` on input whose leading
whitespace has already been skipped, with a fuel bound on nesting
(`jsonLoads` supplies ample fuel). -/
def parseValCore : Nat → List Char → Option (Json × List Char)
  | 0, _ => none
  | fuel + 1, cs =>
    match cs with
    | 'n' :: 'u' :: 'l' :: 'l' :: rest => some (Json.null, rest)
    | 't' :: 'r' :: 'u' :: 'e' :: rest => some (Json.bool true, rest)
    | 'f' :: 'a' :: 'l' :: 's' :: 'e' :: rest => some (Json.bool false, rest)
    | '"' :: rest => (parseStrBody rest).map fun p => (Json.str (String.mk p.1), p.2)
    | '[' :: rest =>
      if (skipWs rest).head? = some ']' then some (Json.arr [], (skipWs rest).tail)
      else (parseItems fuel rest).map fun p => (Json.arr p.1, p.2)
    | '\x7b' :: rest =>
      if (skipWs rest).head? = some '\x7d' then some (Json.obj [], (skipWs rest).tail)
      else (parseFields fuel rest).map fun p => (Json.obj p.1, p.2)
    | _ => parseNum cs

/-- `json.decoder.JSONArray` after the opening bracket of a non-empty
array: value, then `,` and further values or the closing `]`. -/
def parseItems : Nat → List Char → Option (List Json × List Char)
  | 0, _ => none
  | fuel + 1, cs =>
    (parseValCore fuel (skipWs cs)).bind fun vr =>
      if (skipWs vr.2).head? = some ',' then
        (parseItems fuel (skipWs vr.2).tail).map fun p => (vr.1 :: p.1, p.2)
      else if (skipWs vr.2).head? = some ']' then some ([vr.1], (skipWs vr.2).tail)
      else none

/-- `json.decoder.JSONObject` after the opening brace of a non-empty
object: quoted key, `:`, value, then `,` and further entries or the
closing brace.  Entries are kept in textual order as an association
list. -/
def parseFields : Nat → List Char → Option (List (String × Json) × List Char)
  | 0, _ => none
  | fuel + 1, cs =>
    if (skipWs cs).head? = some '"' then
      (parseStrBody (skipWs cs).tail).bind fun kr =>
        if (skipWs kr.2).head? = some ':' then
          (parseValCore fuel (skipWs (skipWs kr.2).tail)).bind fun vr =>
            if (skipWs vr.2).head? = some ',' then
              (parseFields fuel (skipWs vr.2).tail).map fun p =>
                ((String.mk kr.1, vr.1) :: p.1, p.2)
            else if (skipWs vr.2).head? = some '\x7d' then
              some ([(String.mk kr.1, vr.1)], (skipWs vr.2).tail)
            else none
        else none
    else none

end

/-- One JSON value from the front of the input, leading whitespace
allowed. -/
def parseVal (fuel : Nat) (cs : List Char) : Option (Json × List Char) :=
  parseValCore fuel (skipWs cs)

/-- `json.loads` on the integer fragment: one value, then only trailing
whitespace (`Extra data` otherwise). -/
def jsonLoads (s : String) : Option Json :=
  (parseVal (s.length + 1) s.data).bind fun p =>
    if skipWs p.2 = [] then some p.1 else none

example : jsonLoads "null" = some .null := rfl
example : jsonLoads "  [1, 2 ,3 ]  " = some (.arr [.num 1, .num 2, .num 3]) := rfl
example : jsonLoads "[1,]" = none := rfl
example : jsonLoads "05" = none := rfl
example : jsonLoads "1.5" = none := rfl
example : jsonLoads "\x7b \x7d" = some (.obj []) := rfl
example : jsonLoads "\x7b\"a\" : -3 \x7d" = some (.obj [("a", .num (-3))]) := rfl
example : jsonLoads "\"a\\u0001b\"" = some (.str "a\x01b") := rfl

example : jsonDumps .null = "null" := rfl
example : jsonDumps (.num (-17)) = "-17" := rfl
example : jsonDumps (.str "a\"b\\c\né") = "\"a\\\"b\\\\c\\né\"" := rfl
example : jsonDumps (.str "\x01") = "\"\\u0001\"" := rfl
example : jsonDumps (.arr [.num 1, .arr [.num 2, .num 3], .obj [("k", .str "v")]]) =
    "[\n  1,\n  [\n    2,\n    3\n  ],\n  \x7b\n    \"k\": \"v\"\n  \x7d\n]" := rfl
example : jsonDumps (.obj [("a", .arr [.num 1, .num 2]), ("b", .obj [])]) =
    "\x7b\n  \"a\": [\n    1,\n    2\n  ],\n  \"b\": \x7b\x7d\n\x7d" := rfl
example : jsonDumps (buildPayload "pia_search_content"
    [("query", .str "ambulance fraud"), ("filter", .str "data_source eq 'GAO'")]) =
    "\x7b\n  \"jsonrpc\": \"2.0\",\n  \"id\": 1,\n  \"method\": \"tools/call\",\n  \"params\": \x7b\n    \"name\": \"pia_search_content\",\n    \"arguments\": \x7b\n      \"query\": \"ambulance fraud\",\n      \"filter\": \"data_source eq 'GAO'\"\n    \x7d\n  \x7d\n\x7d" := rfl

example : lookupField [("a", .num 1), ("b", .null)] "b" = some Json.null := rfl
example : API_KEY ["--api-key", "k"] = .ok "k" := rfl
example : API_KEY ["--api-key"] = .error apiKeyErrorMsg := rfl
example : API_KEY ["x", "--api-key", ""] = .error apiKeyErrorMsg := rfl
example : getApiKeyFromArgs ["a", "--api-key", "s", "--api-key", "t"] = some "s" := rfl

/-! ## Helper lemmas: characters, digits, whitespace -/

theorem char_toNat_inj {c d : Char} (h : c.toNat = d.toNat) : c = d := by
  rw [← Char.ofNat_toNat c, ← Char.ofNat_toNat d, h]

theorem char_le_iff {c d : Char} : c ≤ d ↔ c.toNat ≤ d.toNat := Iff.rfl

set_option maxHeartbeats 1000000 in
theorem digitChar_bounds : ∀ n, n < 10 →
    ('0' ≤ Nat.digitChar n ∧ Nat.digitChar n ≤ '9') ∧
    (Nat.digitChar n).toNat - '0'.toNat = n := by decide

theorem digitChar_pos : ∀ n, 1 ≤ n → n < 10 → '1' ≤ Nat.digitChar n := by decide

theorem hexVal_digitChar : ∀ n, n < 16 → hexVal? (Nat.digitChar n) = some n := by decide

/-- The head of the remaining input is not a decimal digit. -/
def headNotDigit : List Char → Prop
  | [] => True
  | c :: _ => ¬('0' ≤ c ∧ c ≤ '9')

/-- The head of the remaining input does not continue a float literal. -/
def headNotFloat : List Char → Prop
  | [] => True
  | c :: _ => ¬(c = '.' ∨ c = 'e' ∨ c = 'E')

theorem skipWs_not_ws {c : Char} (cs : List Char) (h : wsChar c = false) :
    skipWs (c :: cs) = c :: cs := by
  simp [skipWs, h]

theorem skipWs_append (l cs : List Char) (h : ∀ c ∈ l, wsChar c = true) :
    skipWs (l ++ cs) = skipWs cs := by
  induction l with
  | nil => rfl
  | cons c l ih =>
    have hc := h c (by simp)
    simp only [List.cons_append, skipWs, hc, if_true]
    exact ih fun x hx => h x (by simp [hx])

theorem nlInd_ws (d : Nat) : ∀ c ∈ nlInd d, wsChar c = true := by
  intro c hc
  simp only [nlInd, List.mem_cons] at hc
  rcases hc with rfl | hc
  · rfl
  · rw [List.eq_of_mem_replicate hc]; rfl

theorem skipWs_nlInd (d : Nat) (cs : List Char) : skipWs (nlInd d ++ cs) = skipWs cs :=
  skipWs_append _ _ (nlInd_ws d)

theorem digitsToNat_nil (acc : Nat) : digitsToNat acc [] = acc := rfl

theorem digitsToNat_cons (acc : Nat) (c : Char) (cs : List Char) :
    digitsToNat acc (c :: cs) = digitsToNat (acc * 10 + (c.toNat - '0'.toNat)) cs := rfl

theorem digitsToNat_append (xs ys : List Char) (acc : Nat) :
    digitsToNat acc (xs ++ ys) = digitsToNat (digitsToNat acc xs) ys := by
  induction xs generalizing acc with
  | nil => rfl
  | cons c xs ih => exact ih _

theorem takeDigits_append (ds rest : List Char)
    (h : ∀ c ∈ ds, '0' ≤ c ∧ c ≤ '9') (hr : headNotDigit rest) :
    takeDigits (ds ++ rest) = (ds, rest) := by
  induction ds with
  | nil =>
    cases rest with
    | nil => rfl
    | cons c l => simp only [headNotDigit] at hr; simp [takeDigits, hr]
  | cons c ds ih =>
    have hc := h c (by simp)
    simp [List.cons_append, takeDigits, hc, List.append_eq,
      ih fun x hx => h x (by simp [hx])]

theorem natDigitsAux_digits : ∀ fuel n, n < fuel →
    ∀ c ∈ natDigitsAux fuel n, '0' ≤ c ∧ c ≤ '9' := by
  intro fuel
  induction fuel with
  | zero => omega
  | succ f ih =>
    intro n hn c hc
    by_cases h10 : n < 10
    · simp only [natDigitsAux, if_pos h10, List.mem_singleton] at hc
      exact hc ▸ (digitChar_bounds n h10).1
    · simp only [natDigitsAux, if_neg h10, List.mem_append, List.mem_singleton] at hc
      rcases hc with hc | rfl
      · exact ih (n / 10) (by omega) c hc
      · exact (digitChar_bounds (n % 10) (by omega)).1

set_option maxHeartbeats 1000000 in
theorem natDigitsAux_val : ∀ fuel n acc, n < fuel →
    digitsToNat acc (natDigitsAux fuel n) =
      acc * 10 ^ (natDigitsAux fuel n).length + n := by
  intro fuel
  induction fuel with
  | zero => omega
  | succ f ih =>
    intro n acc hn
    by_cases h10 : n < 10
    · have hv := (digitChar_bounds n h10).2
      simp only [natDigitsAux, if_pos h10, digitsToNat_cons, digitsToNat_nil,
        List.length_singleton, pow_one]
      omega
    · have hdiv : n / 10 < f := by omega
      have hv := (digitChar_bounds (n % 10) (by omega)).2
      simp only [natDigitsAux, if_neg h10, digitsToNat_append, ih (n / 10) acc hdiv,
        digitsToNat_cons, digitsToNat_nil, List.length_append, List.length_cons,
        List.length_nil, pow_succ]
      have h1 : (acc * 10 ^ (natDigitsAux f (n / 10)).length + n / 10) * 10 =
          acc * (10 ^ (natDigitsAux f (n / 10)).length * 10) + n / 10 * 10 := by
        ring
      omega

theorem natDigitsAux_ne_nil : ∀ fuel n, n < fuel → natDigitsAux fuel n ≠ [] := by
  intro fuel
  induction fuel with
  | zero => omega
  | succ f ih =>
    intro n hn
    by_cases h10 : n < 10
    · simp [natDigitsAux, if_pos h10]
    · simp [natDigitsAux, if_neg h10]

theorem natDigitsAux_head_pos : ∀ fuel n, n < fuel → 1 ≤ n →
    ∃ c l, natDigitsAux fuel n = c :: l ∧ '1' ≤ c ∧ c ≤ '9' := by
  intro fuel
  induction fuel with
  | zero => omega
  | succ f ih =>
    intro n hn h1
    by_cases h10 : n < 10
    · refine ⟨Nat.digitChar n, [], ?_, digitChar_pos n h1 h10, (digitChar_bounds n h10).1.2⟩
      simp [natDigitsAux, if_pos h10]
    · obtain ⟨c, l, hshape, hc1, hc9⟩ := ih (n / 10) (by omega) (by omega)
      refine ⟨c, l ++ [Nat.digitChar (n % 10)], ?_, hc1, hc9⟩
      simp [natDigitsAux, if_neg h10, hshape]

theorem natDigitsChars_shape (n : Nat) :
    ∃ c l, natDigitsChars n = c :: l ∧ '0' ≤ c ∧ c ≤ '9' ∧
      ∀ x ∈ l, '0' ≤ x ∧ x ≤ '9' := by
  have hd := natDigitsAux_digits (n + 1) n (by omega)
  have hne := natDigitsAux_ne_nil (n + 1) n (by omega)
  unfold natDigitsChars
  cases hsh : natDigitsAux (n + 1) n with
  | nil => exact absurd hsh hne
  | cons c l =>
    have hc := hd c (by rw [hsh]; simp)
    exact ⟨c, l, rfl, hc.1, hc.2, fun x hx => hd x (by rw [hsh]; simp [hx])⟩

theorem parseNatNum_cons (c : Char) (cs : List Char) :
    parseNatNum (c :: cs) =
      if c = '0' then some (0, cs)
      else if '1' ≤ c ∧ c ≤ '9' then
        some (digitsToNat (c.toNat - '0'.toNat) (takeDigits cs).1, (takeDigits cs).2)
      else none := rfl

theorem parseNatNum_natDigits (n : Nat) (rest : List Char) (hr : headNotDigit rest) :
    parseNatNum (natDigitsChars n ++ rest) = some (n, rest) := by
  by_cases h0 : n = 0
  · subst h0
    show parseNatNum ('0' :: rest) = some (0, rest)
    rw [parseNatNum_cons, if_pos rfl]
  · obtain ⟨c, l, hshape, hc1, hc9⟩ :=
      natDigitsAux_head_pos (n + 1) n (by omega) (by omega)
    have hds := natDigitsAux_digits (n + 1) n (by omega)
    have hval := natDigitsAux_val (n + 1) n 0 (by omega)
    have hc49 : 49 ≤ c.toNat := char_le_iff.mp hc1
    have hc0 : c ≠ '0' := by
      intro h
      rw [h] at hc49
      exact absurd hc49 (by decide)
    unfold natDigitsChars
    rw [hshape, List.cons_append, parseNatNum_cons, if_neg hc0,
      if_pos ⟨hc1, hc9⟩]
    rw [takeDigits_append l rest (fun x hx => hds x (by rw [hshape]; simp [hx])) hr]
    rw [hshape, digitsToNat_cons, Nat.zero_mul, Nat.zero_add] at hval
    simp only [hval, Nat.zero_mul, Nat.zero_add, Option.some.injEq, Prod.mk.injEq,
      and_true]

theorem parseNum_cons (c : Char) (cs : List Char) :
    parseNum (c :: cs) =
      if c = '-' then (parseNatNum cs).bind fun p => parseNum.noFloatTail (-(p.1 : Int)) p.2
      else (parseNatNum (c :: cs)).bind fun p => parseNum.noFloatTail (p.1 : Int) p.2 := rfl

theorem noFloatTail_eq (v : Int) (rest : List Char) (hf : headNotFloat rest) :
    parseNum.noFloatTail v rest = some (.num v, rest) := by
  cases rest with
  | nil => rfl
  | cons c l =>
    simp only [headNotFloat] at hf
    simp [parseNum.noFloatTail, hf]

theorem parseNum_intRepr (n : Int) (rest : List Char) (hr : headNotDigit rest)
    (hf : headNotFloat rest) :
    parseNum (intReprChars n ++ rest) = some (.num n, rest) := by
  by_cases hneg : n < 0
  · have : intReprChars n = '-' :: natDigitsChars n.natAbs := by
      simp [intReprChars, if_pos hneg]
    rw [this, List.cons_append, parseNum_cons, if_pos rfl,
      parseNatNum_natDigits n.natAbs rest hr]
    simp only [Option.some_bind]
    rw [noFloatTail_eq _ rest hf]
    have : -((n.natAbs : Nat) : Int) = n := by omega
    rw [this]
  · have hshape : intReprChars n = natDigitsChars n.toNat := by
      simp [intReprChars, if_neg hneg]
    obtain ⟨c, l, hcl, hc0, hc9, _⟩ := natDigitsChars_shape n.toNat
    have hc48 : 48 ≤ c.toNat := char_le_iff.mp hc0
    have hcm : c ≠ '-' := by
      intro h
      rw [h] at hc48
      exact absurd hc48 (by decide)
    rw [hshape, hcl, List.cons_append, parseNum_cons, if_neg hcm, ← List.cons_append,
      ← hcl, parseNatNum_natDigits n.toNat rest hr]
    simp only [Option.some_bind]
    rw [noFloatTail_eq _ rest hf]
    have : ((n.toNat : Nat) : Int) = n := by omega
    rw [this]

theorem parseStrBody_quote (cs : List Char) : parseStrBody ('"' :: cs) = some ([], cs) := rfl

theorem parseStrBody_cons (c : Char) (cs : List Char) :
    parseStrBody (c :: cs) =
      (if c = '"' then some ([], cs)
       else if c = '\\' then parseEscSeq cs
       else if c.toNat < 0x20 then none
       else (parseStrBody cs).map fun p => (c :: p.1, p.2)) := rfl

theorem parseEscSeq_u (h1 h2 h3 h4 : Char) (cs : List Char) :
    parseEscSeq ('u' :: h1 :: h2 :: h3 :: h4 :: cs) =
      (hexQuad h1 h2 h3 h4).bind fun n =>
        if n < 0xd800 then
          (parseStrBody cs).map fun p => (Char.ofNat n :: p.1, p.2)
        else none := rfl

theorem parseStrBody_escList (l rest : List Char) :
    parseStrBody (escList l ++ '"' :: rest) = some (l, rest) := by
  induction l with
  | nil => exact parseStrBody_quote rest
  | cons c l ih =>
    by_cases hq : c = '"'
    · subst hq
      show parseStrBody ('\\' :: '"' :: (escList l ++ '"' :: rest)) = _
      have h : parseStrBody ('\\' :: '"' :: (escList l ++ '"' :: rest)) =
          (parseStrBody (escList l ++ '"' :: rest)).map fun p => ('"' :: p.1, p.2) := rfl
      rw [h, ih]
      rfl
    by_cases hb : c = '\\'
    · subst hb
      show parseStrBody ('\\' :: '\\' :: (escList l ++ '"' :: rest)) = _
      have h : parseStrBody ('\\' :: '\\' :: (escList l ++ '"' :: rest)) =
          (parseStrBody (escList l ++ '"' :: rest)).map fun p => ('\\' :: p.1, p.2) := rfl
      rw [h, ih]
      rfl
    by_cases hn : c = '\n'
    · subst hn
      show parseStrBody ('\\' :: 'n' :: (escList l ++ '"' :: rest)) = _
      have h : parseStrBody ('\\' :: 'n' :: (escList l ++ '"' :: rest)) =
          (parseStrBody (escList l ++ '"' :: rest)).map fun p => ('\n' :: p.1, p.2) := rfl
      rw [h, ih]
      rfl
    by_cases hr : c = '\r'
    · subst hr
      show parseStrBody ('\\' :: 'r' :: (escList l ++ '"' :: rest)) = _
      have h : parseStrBody ('\\' :: 'r' :: (escList l ++ '"' :: rest)) =
          (parseStrBody (escList l ++ '"' :: rest)).map fun p => ('\r' :: p.1, p.2) := rfl
      rw [h, ih]
      rfl
    by_cases ht : c = '\t'
    · subst ht
      show parseStrBody ('\\' :: 't' :: (escList l ++ '"' :: rest)) = _
      have h : parseStrBody ('\\' :: 't' :: (escList l ++ '"' :: rest)) =
          (parseStrBody (escList l ++ '"' :: rest)).map fun p => ('\t' :: p.1, p.2) := rfl
      rw [h, ih]
      rfl
    by_cases h8 : c = '\x08'
    · subst h8
      show parseStrBody ('\\' :: 'b' :: (escList l ++ '"' :: rest)) = _
      have h : parseStrBody ('\\' :: 'b' :: (escList l ++ '"' :: rest)) =
          (parseStrBody (escList l ++ '"' :: rest)).map fun p => ('\x08' :: p.1, p.2) := rfl
      rw [h, ih]
      rfl
    by_cases hc : c = '\x0c'
    · subst hc
      show parseStrBody ('\\' :: 'f' :: (escList l ++ '"' :: rest)) = _
      have h : parseStrBody ('\\' :: 'f' :: (escList l ++ '"' :: rest)) =
          (parseStrBody (escList l ++ '"' :: rest)).map fun p => ('\x0c' :: p.1, p.2) := rfl
      rw [h, ih]
      rfl
    by_cases hctl : c.toNat < 0x20
    · have hesc : escCharL c = ['\\', 'u', '0', '0',
          Nat.digitChar (c.toNat / 16), Nat.digitChar (c.toNat % 16)] := by
        simp only [escCharL, if_neg hq, if_neg hb, if_neg hn, if_neg hr, if_neg ht,
          if_neg h8, if_neg hc, if_pos hctl]
      rw [show escList (c :: l) = escCharL c ++ escList l from rfl, List.append_assoc, hesc]
      show parseStrBody ('\\' :: 'u' :: '0' :: '0' :: Nat.digitChar (c.toNat / 16) ::
        Nat.digitChar (c.toNat % 16) :: (escList l ++ '"' :: rest)) = _
      have hstep : parseStrBody ('\\' :: 'u' :: '0' :: '0' :: Nat.digitChar (c.toNat / 16) ::
          Nat.digitChar (c.toNat % 16) :: (escList l ++ '"' :: rest)) =
          parseEscSeq ('u' :: '0' :: '0' :: Nat.digitChar (c.toNat / 16) ::
            Nat.digitChar (c.toNat % 16) :: (escList l ++ '"' :: rest)) := rfl
      rw [hstep, parseEscSeq_u]
      have ehi : hexVal? (Nat.digitChar (c.toNat / 16)) = some (c.toNat / 16) :=
        hexVal_digitChar _ (by omega)
      have elo : hexVal? (Nat.digitChar (c.toNat % 16)) = some (c.toNat % 16) :=
        hexVal_digitChar _ (by omega)
      have hquad : hexQuad '0' '0' (Nat.digitChar (c.toNat / 16))
          (Nat.digitChar (c.toNat % 16)) = some c.toNat := by
        have e0 : hexVal? '0' = some 0 := rfl
        simp only [hexQuad, e0, ehi, elo, Option.some_bind, Option.some.injEq]
        omega
      rw [hquad]
      simp only [Option.some_bind, if_pos (show c.toNat < 0xd800 by omega), ih,
        Char.ofNat_toNat]
      rfl
    · have hesc : escCharL c = [c] := by
        simp only [escCharL, if_neg hq, if_neg hb, if_neg hn, if_neg hr, if_neg ht,
          if_neg h8, if_neg hc, if_neg hctl]
      rw [show escList (c :: l) = escCharL c ++ escList l from rfl, List.append_assoc, hesc]
      show parseStrBody (c :: (escList l ++ '"' :: rest)) = _
      rw [parseStrBody_cons, if_neg hq, if_neg hb, if_neg hctl, ih]
      rfl

/-! ## Fuel accounting and structural induction for `Json` -/

mutual

/-- Fuel sufficient for `parseValCore` to parse the printed form of `v`. -/
def fuelJ : Json → Nat
  | .null => 1
  | .bool _ => 1
  | .num _ => 1
  | .str _ => 1
  | .arr xs => 1 + fuelL xs
  | .obj fs => 1 + fuelF fs

/-- Fuel sufficient for `parseItems` on the printed items of an array. -/
def fuelL : List Json → Nat
  | [] => 0
  | x :: xs => 1 + fuelJ x + fuelL xs

/-- Fuel sufficient for `parseFields` on the printed entries of an object. -/
def fuelF : List (String × Json) → Nat
  | [] => 0
  | f :: fs => 1 + fuelJ f.2 + fuelF fs

end

theorem fuelJ_pos (v : Json) : 1 ≤ fuelJ v := by
  cases v <;> simp [fuelJ]

/-- Structural induction for the nested inductive `Json`. -/
theorem Json.indOn (P : Json → Prop)
    (hnull : P .null) (hbool : ∀ b, P (.bool b)) (hnum : ∀ n, P (.num n))
    (hstr : ∀ s, P (.str s))
    (harr : ∀ xs, (∀ x ∈ xs, P x) → P (.arr xs))
    (hobj : ∀ fs, (∀ f ∈ fs, P f.2) → P (.obj fs)) : ∀ v, P v
  | .null => hnull
  | .bool b => hbool b
  | .num n => hnum n
  | .str s => hstr s
  | .arr xs =>
    harr xs fun x hx =>
      have : sizeOf x < sizeOf (Json.arr xs) := by
        have h := List.sizeOf_lt_of_mem hx
        simp only [Json.arr.sizeOf_spec]
        omega
      Json.indOn P hnull hbool hnum hstr harr hobj x
  | .obj fs =>
    hobj fs fun f hf =>
      have : sizeOf f.2 < sizeOf (Json.obj fs) := by
        have h := List.sizeOf_lt_of_mem hf
        have h2 : sizeOf f.2 < sizeOf f := by
          obtain ⟨a, b⟩ := f
          simp only [Prod.mk.sizeOf_spec]
          omega
        simp only [Json.obj.sizeOf_spec]
        omega
      Json.indOn P hnull hbool hnum hstr harr hobj f.2
termination_by v => sizeOf v
decreasing_by
  all_goals simpa using this

/-! ## Head and length facts about the printer -/

theorem dumpsL_num_eq (n : Int) (d : Nat) : dumpsL (.num n) d = intReprChars n := rfl

theorem dumpsL_str_eq (s : String) (d : Nat) : dumpsL (.str s) d = encStrL s := rfl

theorem dumpsL_arr_cons (x : Json) (xs : List Json) (d : Nat) :
    dumpsL (.arr (x :: xs)) d =
      '[' :: (nlInd (d + 1) ++ dumpsL x (d + 1) ++ itemsRest xs (d + 1) ++
        nlInd d ++ [']']) := rfl

theorem dumpsL_obj_cons (f : String × Json) (fs : List (String × Json)) (d : Nat) :
    dumpsL (.obj (f :: fs)) d =
      '\x7b' :: (nlInd (d + 1) ++ encStrL f.1 ++ ':' :: ' ' :: dumpsL f.2 (d + 1) ++
        fieldsRest fs (d + 1) ++ nlInd d ++ ['\x7d']) := rfl

theorem itemsRest_cons (x : Json) (xs : List Json) (d : Nat) :
    itemsRest (x :: xs) d = ',' :: (nlInd d ++ dumpsL x d ++ itemsRest xs d) := rfl

theorem fieldsRest_cons (f : String × Json) (fs : List (String × Json)) (d : Nat) :
    fieldsRest (f :: fs) d =
      ',' :: (nlInd d ++ encStrL f.1 ++ ':' :: ' ' :: dumpsL f.2 d ++ fieldsRest fs d) := rfl

theorem wsChar_iff (c : Char) :
    wsChar c = true ↔ (c.toNat = 32 ∨ c.toNat = 9 ∨ c.toNat = 10 ∨ c.toNat = 13) := by
  simp only [wsChar, Bool.or_eq_true, decide_eq_true_eq]
  constructor
  · rintro (((rfl | rfl) | rfl) | rfl)
    · exact Or.inl rfl
    · exact Or.inr (Or.inl rfl)
    · exact Or.inr (Or.inr (Or.inl rfl))
    · exact Or.inr (Or.inr (Or.inr rfl))
  · rintro (h | h | h | h)
    · exact Or.inl (Or.inl (Or.inl (char_toNat_inj (show c.toNat = (' ').toNat from h))))
    · exact Or.inl (Or.inl (Or.inr (char_toNat_inj (show c.toNat = ('\t').toNat from h))))
    · exact Or.inl (Or.inr (char_toNat_inj (show c.toNat = ('\n').toNat from h)))
    · exact Or.inr (char_toNat_inj (show c.toNat = ('\r').toNat from h))

theorem wsChar_false_of (c : Char)
    (h : ¬(c.toNat = 32 ∨ c.toNat = 9 ∨ c.toNat = 10 ∨ c.toNat = 13)) :
    wsChar c = false := by
  rw [Bool.eq_false_iff]
  intro hw
  exact h ((wsChar_iff c).mp hw)

theorem char_ne_of_toNat {c : Char} {n : Nat} (hd : c.toNat ≤ 57) (hn : 58 ≤ n)
    (d : Char) (hdn : d.toNat = n) : c ≠ d := by
  intro he
  rw [he, hdn] at hd
  omega

/-- The printed form of any value starts with a non-whitespace character
that is neither a closing bracket nor a closing brace. -/
theorem dumpsL_head (v : Json) (d : Nat) :
    ∃ c l, dumpsL v d = c :: l ∧ wsChar c = false ∧ c ≠ ']' ∧ c ≠ '\x7d' := by
  cases v with
  | num n =>
    by_cases hneg : n < 0
    · refine ⟨'-', natDigitsChars n.natAbs, ?_, ?_, ?_, ?_⟩
      · rw [dumpsL_num_eq]
        simp [intReprChars, if_pos hneg]
      all_goals decide
    · obtain ⟨c, l, hcl, hc0, hc9, _⟩ := natDigitsChars_shape n.toNat
      have e0 : '0'.toNat = 48 := rfl
      have e9 : '9'.toNat = 57 := rfl
      have h48 : 48 ≤ c.toNat := by have := char_le_iff.mp hc0; omega
      have h57 : c.toNat ≤ 57 := by have := char_le_iff.mp hc9; omega
      refine ⟨c, l, ?_, ?_, ?_, ?_⟩
      · rw [dumpsL_num_eq]
        simp [intReprChars, if_neg hneg, hcl]
      · exact wsChar_false_of c (by omega)
      · exact char_ne_of_toNat h57 (by decide) ']' (show (']').toNat = 93 from rfl)
      · exact char_ne_of_toNat h57 (by decide) '\x7d' (show ('\x7d').toNat = 125 from rfl)
  | bool b => cases b <;> (refine ⟨_, _, rfl, ?_, ?_, ?_⟩ <;> decide)
  | arr xs => cases xs <;> (refine ⟨'[', _, rfl, ?_, ?_, ?_⟩ <;> decide)
  | obj fs => cases fs <;> (refine ⟨'\x7b', _, rfl, ?_, ?_, ?_⟩ <;> decide)
  | null => refine ⟨'n', _, rfl, ?_, ?_, ?_⟩ <;> decide
  | str s => refine ⟨'"', _, rfl, ?_, ?_, ?_⟩ <;> decide

/-- The separator context that can follow a printed value inside a
document: end of input, a comma, a newline, or a closing bracket. -/
def sepHead : List Char → Prop
  | [] => True
  | c :: _ => c = ',' ∨ c = '\n' ∨ c = ']' ∨ c = '\x7d'

theorem headNotDigit_cons (c : Char) (l : List Char) (h : ¬('0' ≤ c ∧ c ≤ '9')) :
    headNotDigit (c :: l) := h

theorem headNotFloat_cons (c : Char) (l : List Char) (h : ¬(c = '.' ∨ c = 'e' ∨ c = 'E')) :
    headNotFloat (c :: l) := h

theorem sepHead_num (rest : List Char) (h : sepHead rest) :
    headNotDigit rest ∧ headNotFloat rest := by
  cases rest with
  | nil => exact ⟨trivial, trivial⟩
  | cons c l =>
    simp only [sepHead] at h
    rcases h with rfl | rfl | rfl | rfl <;>
      exact ⟨headNotDigit_cons _ _ (by decide), headNotFloat_cons _ _ (by decide)⟩

theorem nlInd_length (d : Nat) : (nlInd d).length = 1 + 2 * d := by
  simp [nlInd]
  omega

theorem itemsRest_fuel (ys : List Json) (d : Nat)
    (h : ∀ y ∈ ys, ∀ d2, fuelJ y ≤ (dumpsL y d2).length) :
    fuelL ys ≤ (itemsRest ys d).length := by
  induction ys with
  | nil => simp [fuelL, itemsRest]
  | cons y ys ih =>
    have hy := h y (by simp) d
    have hys := ih fun z hz => h z (by simp [hz])
    rw [itemsRest_cons]
    simp only [fuelL, List.length_cons, List.length_append, nlInd_length]
    omega

theorem fieldsRest_fuel (fs : List (String × Json)) (d : Nat)
    (h : ∀ f ∈ fs, ∀ d2, fuelJ f.2 ≤ (dumpsL f.2 d2).length) :
    fuelF fs ≤ (fieldsRest fs d).length := by
  induction fs with
  | nil => simp [fuelF, fieldsRest]
  | cons f fs ih =>
    have hy := h f (by simp) d
    have hys := ih fun z hz => h z (by simp [hz])
    rw [fieldsRest_cons]
    simp only [fuelF, List.length_cons, List.length_append, nlInd_length]
    omega

theorem intReprChars_ne_nil (n : Int) : intReprChars n ≠ [] := by
  by_cases hneg : n < 0
  · simp [intReprChars, if_pos hneg]
  · obtain ⟨c, l, hcl, _, _, _⟩ := natDigitsChars_shape n.toNat
    simp [intReprChars, if_neg hneg, hcl]

/-- The fuel requirement of a value is bounded by the length of its
printed form. -/
theorem fuelJ_le_dumpsLen : ∀ v : Json, ∀ d, fuelJ v ≤ (dumpsL v d).length := by
  refine Json.indOn (fun v => ∀ d, fuelJ v ≤ (dumpsL v d).length) ?_ ?_ ?_ ?_ ?_ ?_
  · intro d
    rw [show dumpsL Json.null d = ['n', 'u', 'l', 'l'] from rfl]
    decide
  · intro b d
    cases b with
    | true =>
      rw [show dumpsL (Json.bool true) d = ['t', 'r', 'u', 'e'] from rfl]
      decide
    | false =>
      rw [show dumpsL (Json.bool false) d = ['f', 'a', 'l', 's', 'e'] from rfl]
      decide
  · intro n d
    rw [dumpsL_num_eq]
    have := intReprChars_ne_nil n
    have : 0 < (intReprChars n).length := List.length_pos.mpr this
    simp only [fuelJ]
    omega
  · intro s d
    simp [fuelJ, dumpsL_str_eq, encStrL]
  · intro xs hmem d
    cases xs with
    | nil =>
      rw [show dumpsL (Json.arr []) d = ['[', ']'] from rfl]
      simp [fuelJ, fuelL]
    | cons x xs =>
      have hx := hmem x (by simp) (d + 1)
      have hxs := itemsRest_fuel xs (d + 1) fun z hz => hmem z (by simp [hz])
      rw [dumpsL_arr_cons]
      simp only [fuelJ, fuelL, List.length_cons, List.length_append, nlInd_length]
      omega
  · intro fs hmem d
    cases fs with
    | nil =>
      rw [show dumpsL (Json.obj []) d = ['\x7b', '\x7d'] from rfl]
      simp [fuelJ, fuelF]
    | cons f fs =>
      have hx := hmem f (by simp) (d + 1)
      have hxs := fieldsRest_fuel fs (d + 1) fun z hz => hmem z (by simp [hz])
      rw [dumpsL_obj_cons]
      simp only [fuelJ, fuelF, List.length_cons, List.length_append, nlInd_length]
      omega

/-! ## Step equations for the core parser -/

theorem parseValCore_null (f : Nat) (rest : List Char) :
    parseValCore (f + 1) ('n' :: 'u' :: 'l' :: 'l' :: rest) = some (Json.null, rest) := rfl

theorem parseValCore_true (f : Nat) (rest : List Char) :
    parseValCore (f + 1) ('t' :: 'r' :: 'u' :: 'e' :: rest) = some (Json.bool true, rest) := rfl

theorem parseValCore_false (f : Nat) (rest : List Char) :
    parseValCore (f + 1) ('f' :: 'a' :: 'l' :: 's' :: 'e' :: rest) =
      some (Json.bool false, rest) := rfl

theorem parseValCore_quote (f : Nat) (q : List Char) :
    parseValCore (f + 1) ('"' :: q) =
      (parseStrBody q).map fun p => (Json.str (String.mk p.1), p.2) := rfl

theorem parseValCore_lbracket (f : Nat) (t : List Char) :
    parseValCore (f + 1) ('[' :: t) =
      if (skipWs t).head? = some ']' then some (Json.arr [], (skipWs t).tail)
      else (parseItems f t).map fun p => (Json.arr p.1, p.2) := rfl

theorem parseValCore_lbrace (f : Nat) (t : List Char) :
    parseValCore (f + 1) ('\x7b' :: t) =
      if (skipWs t).head? = some '\x7d' then some (Json.obj [], (skipWs t).tail)
      else (parseFields f t).map fun p => (Json.obj p.1, p.2) := rfl

theorem parseValCore_dash (f : Nat) (cs : List Char) :
    parseValCore (f + 1) ('-' :: cs) = parseNum ('-' :: cs) := rfl

theorem parseItems_succ (f : Nat) (cs : List Char) :
    parseItems (f + 1) cs =
      (parseValCore f (skipWs cs)).bind fun vr =>
        if (skipWs vr.2).head? = some ',' then
          (parseItems f (skipWs vr.2).tail).map fun p => (vr.1 :: p.1, p.2)
        else if (skipWs vr.2).head? = some ']' then some ([vr.1], (skipWs vr.2).tail)
        else none := rfl

theorem parseFields_succ (f : Nat) (cs : List Char) :
    parseFields (f + 1) cs =
      (if (skipWs cs).head? = some '"' then
        (parseStrBody (skipWs cs).tail).bind fun kr =>
          if (skipWs kr.2).head? = some ':' then
            (parseValCore f (skipWs (skipWs kr.2).tail)).bind fun vr =>
              if (skipWs vr.2).head? = some ',' then
                (parseFields f (skipWs vr.2).tail).map fun p =>
                  ((String.mk kr.1, vr.1) :: p.1, p.2)
              else if (skipWs vr.2).head? = some '\x7d' then
                some ([(String.mk kr.1, vr.1)], (skipWs vr.2).tail)
              else none
          else none
      else none) := rfl

theorem char_digit_cases (c : Char) (h48 : 48 ≤ c.toNat) (h57 : c.toNat ≤ 57) :
    c = '0' ∨ c = '1' ∨ c = '2' ∨ c = '3' ∨ c = '4' ∨
    c = '5' ∨ c = '6' ∨ c = '7' ∨ c = '8' ∨ c = '9' := by
  have h : c.toNat = 48 ∨ c.toNat = 49 ∨ c.toNat = 50 ∨ c.toNat = 51 ∨ c.toNat = 52 ∨
      c.toNat = 53 ∨ c.toNat = 54 ∨ c.toNat = 55 ∨ c.toNat = 56 ∨ c.toNat = 57 := by
    omega
  rcases h with h | h | h | h | h | h | h | h | h | h
  · exact Or.inl (char_toNat_inj (show c.toNat = ('0').toNat from h))
  · exact Or.inr (Or.inl (char_toNat_inj (show c.toNat = ('1').toNat from h)))
  · exact Or.inr (Or.inr (Or.inl (char_toNat_inj (show c.toNat = ('2').toNat from h))))
  · exact Or.inr (Or.inr (Or.inr (Or.inl
      (char_toNat_inj (show c.toNat = ('3').toNat from h)))))
  · exact Or.inr (Or.inr (Or.inr (Or.inr (Or.inl
      (char_toNat_inj (show c.toNat = ('4').toNat from h))))))
  · exact Or.inr (Or.inr (Or.inr (Or.inr (Or.inr (Or.inl
      (char_toNat_inj (show c.toNat = ('5').toNat from h)))))))
  · exact Or.inr (Or.inr (Or.inr (Or.inr (Or.inr (Or.inr (Or.inl
      (char_toNat_inj (show c.toNat = ('6').toNat from h))))))))
  · exact Or.inr (Or.inr (Or.inr (Or.inr (Or.inr (Or.inr (Or.inr (Or.inl
      (char_toNat_inj (show c.toNat = ('7').toNat from h)))))))))
  · exact Or.inr (Or.inr (Or.inr (Or.inr (Or.inr (Or.inr (Or.inr (Or.inr (Or.inl
      (char_toNat_inj (show c.toNat = ('8').toNat from h))))))))))
  · exact Or.inr (Or.inr (Or.inr (Or.inr (Or.inr (Or.inr (Or.inr (Or.inr (Or.inr
      (char_toNat_inj (show c.toNat = ('9').toNat from h))))))))))

theorem parseValCore_digit (f : Nat) (c : Char) (cs : List Char)
    (h0 : '0' ≤ c) (h9 : c ≤ '9') :
    parseValCore (f + 1) (c :: cs) = parseNum (c :: cs) := by
  have e0 : '0'.toNat = 48 := rfl
  have e9 : '9'.toNat = 57 := rfl
  have h48 : 48 ≤ c.toNat := by have := char_le_iff.mp h0; omega
  have h57 : c.toNat ≤ 57 := by have := char_le_iff.mp h9; omega
  rcases char_digit_cases c h48 h57 with
    rfl | rfl | rfl | rfl | rfl | rfl | rfl | rfl | rfl | rfl <;> rfl

/-! ## The printer-parser round trip -/

theorem if_head_eq {A : Type} (c : Char) (l : List Char) (a b : A) :
    (if (c :: l).head? = some c then a else b) = a := if_pos rfl

theorem if_head_ne {A : Type} {c d : Char} (h : c ≠ d) (l : List Char) (a b : A) :
    (if (c :: l).head? = some d then a else b) = b :=
  if_neg (by simp only [List.head?_cons, Option.some.injEq]; exact h)

set_option maxHeartbeats 2000000 in
/-- By induction on fuel: the core parser inverts the printer, for values,
array items, and object entries. -/
theorem roundtrip_core : ∀ fuel : Nat,
    (∀ v : Json, fuelJ v ≤ fuel → ∀ d (rest : List Char), sepHead rest →
      parseValCore fuel (dumpsL v d ++ rest) = some (v, rest)) ∧
    (∀ (x : Json) (xs : List Json), fuelL (x :: xs) ≤ fuel → ∀ d dI dC (rest : List Char),
      parseItems fuel
          (nlInd dI ++ (dumpsL x d ++ (itemsRest xs d ++ (nlInd dC ++ ']' :: rest)))) =
        some (x :: xs, rest)) ∧
    (∀ (k : String) (w : Json) (fs : List (String × Json)), fuelF ((k, w) :: fs) ≤ fuel →
      ∀ d dI dC (rest : List Char),
      parseFields fuel
          (nlInd dI ++ (encStrL k ++ (':' :: ' ' :: (dumpsL w d ++
            (fieldsRest fs d ++ (nlInd dC ++ '\x7d' :: rest)))))) =
        some ((k, w) :: fs, rest)) := by
  intro fuel
  induction fuel with
  | zero =>
    refine ⟨?_, ?_, ?_⟩
    · intro v hf _ _ _
      exact absurd hf (by have := fuelJ_pos v; omega)
    · intro x xs hf _ _ _ _
      rw [show fuelL (x :: xs) = 1 + fuelJ x + fuelL xs from rfl] at hf
      omega
    · intro k w fs hf _ _ _ _
      rw [show fuelF ((k, w) :: fs) = 1 + fuelJ w + fuelF fs from rfl] at hf
      omega
  | succ f ih =>
    obtain ⟨ihV, ihI, ihF⟩ := ih
    refine ⟨?_, ?_, ?_⟩
    · -- values
      intro v hf d rest hsep
      cases v with
      | null => exact parseValCore_null f rest
      | bool b =>
        cases b with
        | true => exact parseValCore_true f rest
        | false => exact parseValCore_false f rest
      | num n =>
        obtain ⟨hnd, hnf⟩ := sepHead_num rest hsep
        rw [dumpsL_num_eq]
        by_cases hneg : n < 0
        · have hshape : intReprChars n = '-' :: natDigitsChars n.natAbs := by
            simp [intReprChars, if_pos hneg]
          rw [hshape, List.cons_append, parseValCore_dash, ← List.cons_append, ← hshape]
          exact parseNum_intRepr n rest hnd hnf
        · obtain ⟨c, l, hcl, hc0, hc9, _⟩ := natDigitsChars_shape n.toNat
          have hshape : intReprChars n = c :: l := by
            simp [intReprChars, if_neg hneg, hcl]
          rw [hshape, List.cons_append, parseValCore_digit f c _ hc0 hc9,
            ← List.cons_append, ← hshape]
          exact parseNum_intRepr n rest hnd hnf
      | str s =>
        rw [dumpsL_str_eq,
          show encStrL s ++ rest = '"' :: (escList s.data ++ '"' :: rest) by
            simp [encStrL],
          parseValCore_quote, parseStrBody_escList]
        rfl
      | arr xs =>
        cases xs with
        | nil => rfl
        | cons x xs =>
          rw [dumpsL_arr_cons, List.cons_append, parseValCore_lbracket,
            show (nlInd (d + 1) ++ dumpsL x (d + 1) ++ itemsRest xs (d + 1) ++
                nlInd d ++ [']']) ++ rest =
              nlInd (d + 1) ++ (dumpsL x (d + 1) ++ (itemsRest xs (d + 1) ++
                (nlInd d ++ ']' :: rest))) from by simp]
          obtain ⟨c0, l0, hc0l, hcws, hcnb, _⟩ := dumpsL_head x (d + 1)
          have hskip : skipWs (nlInd (d + 1) ++ (dumpsL x (d + 1) ++ (itemsRest xs (d + 1) ++
              (nlInd d ++ ']' :: rest)))) =
              c0 :: (l0 ++ (itemsRest xs (d + 1) ++ (nlInd d ++ ']' :: rest))) := by
            rw [skipWs_nlInd, hc0l, List.cons_append, skipWs_not_ws _ hcws]
          rw [hskip, if_neg (by simp [hcnb])]
          have hfL : fuelL (x :: xs) ≤ f := by
            rw [show fuelJ (Json.arr (x :: xs)) = 1 + fuelL (x :: xs) from rfl] at hf
            omega
          rw [ihI x xs hfL (d + 1) (d + 1) d rest]
          rfl
      | obj fs =>
        cases fs with
        | nil => rfl
        | cons g fs =>
          rw [dumpsL_obj_cons, List.cons_append, parseValCore_lbrace,
            show (nlInd (d + 1) ++ encStrL g.1 ++ ':' :: ' ' :: dumpsL g.2 (d + 1) ++
                fieldsRest fs (d + 1) ++ nlInd d ++ ['\x7d']) ++ rest =
              nlInd (d + 1) ++ (encStrL g.1 ++ (':' :: ' ' :: (dumpsL g.2 (d + 1) ++
                (fieldsRest fs (d + 1) ++ (nlInd d ++ '\x7d' :: rest))))) from by simp]
          have hskip : skipWs (nlInd (d + 1) ++ (encStrL g.1 ++ (':' :: ' ' ::
              (dumpsL g.2 (d + 1) ++ (fieldsRest fs (d + 1) ++
                (nlInd d ++ '\x7d' :: rest)))))) =
              '"' :: (escList g.1.data ++ ['"'] ++ (':' :: ' ' :: (dumpsL g.2 (d + 1) ++
                (fieldsRest fs (d + 1) ++ (nlInd d ++ '\x7d' :: rest))))) := by
            rw [skipWs_nlInd,
              show encStrL g.1 ++ (':' :: ' ' :: (dumpsL g.2 (d + 1) ++
                  (fieldsRest fs (d + 1) ++ (nlInd d ++ '\x7d' :: rest)))) =
                '"' :: (escList g.1.data ++ ['"'] ++ (':' :: ' ' :: (dumpsL g.2 (d + 1) ++
                  (fieldsRest fs (d + 1) ++ (nlInd d ++ '\x7d' :: rest))))) from by
                simp [encStrL],
              skipWs_not_ws _ (by decide)]
          rw [hskip, if_head_ne (show ('\x22' : Char) ≠ '\x7d' by decide)]
          have hfF : fuelF ((g.1, g.2) :: fs) ≤ f := by
            rw [show fuelJ (Json.obj (g :: fs)) = 1 + fuelF (g :: fs) from rfl] at hf
            rw [show fuelF ((g.1, g.2) :: fs) = fuelF (g :: fs) from by
              obtain ⟨a, b⟩ := g; rfl]
            omega
          rw [ihF g.1 g.2 fs hfF (d + 1) (d + 1) d rest]
          obtain ⟨a, b⟩ := g
          rfl
    · -- items
      intro x xs hf d dI dC rest
      rw [parseItems_succ]
      obtain ⟨c0, l0, hc0l, hcws, _, _⟩ := dumpsL_head x d
      have hskip : skipWs (nlInd dI ++ (dumpsL x d ++ (itemsRest xs d ++
          (nlInd dC ++ ']' :: rest)))) =
          dumpsL x d ++ (itemsRest xs d ++ (nlInd dC ++ ']' :: rest)) := by
        rw [skipWs_nlInd, hc0l, List.cons_append, skipWs_not_ws _ hcws, ← List.cons_append]
      rw [hskip]
      have hsep2 : sepHead (itemsRest xs d ++ (nlInd dC ++ ']' :: rest)) := by
        cases xs with
        | nil => exact Or.inr (Or.inl rfl)
        | cons y ys => exact Or.inl rfl
      have hfx : fuelJ x ≤ f := by
        rw [show fuelL (x :: xs) = 1 + fuelJ x + fuelL xs from rfl] at hf
        omega
      rw [ihV x hfx d _ hsep2]
      simp only [Option.some_bind]
      cases xs with
      | nil =>
        have hsk : skipWs (itemsRest [] d ++ (nlInd dC ++ ']' :: rest)) = ']' :: rest := by
          show skipWs (nlInd dC ++ ']' :: rest) = ']' :: rest
          rw [skipWs_nlInd, skipWs_not_ws _ (by decide)]
        rw [hsk, if_head_ne (show (']' : Char) ≠ ',' by decide), if_head_eq]
        rfl
      | cons y ys =>
        have hsk : skipWs (itemsRest (y :: ys) d ++ (nlInd dC ++ ']' :: rest)) =
            ',' :: ((nlInd d ++ dumpsL y d ++ itemsRest ys d) ++
              (nlInd dC ++ ']' :: rest)) := by
          rw [itemsRest_cons, List.cons_append, skipWs_not_ws _ (by decide)]
        rw [hsk, if_head_eq]
        have hfy : fuelL (y :: ys) ≤ f := by
          rw [show fuelL (x :: y :: ys) = 1 + fuelJ x + fuelL (y :: ys) from rfl] at hf
          omega
        simp only [List.tail_cons]
        rw [show ((nlInd d ++ dumpsL y d ++ itemsRest ys d) ++
              (nlInd dC ++ ']' :: rest) : List Char) =
            nlInd d ++ (dumpsL y d ++ (itemsRest ys d ++ (nlInd dC ++ ']' :: rest)))
            from by simp]
        rw [ihI y ys hfy d d dC rest]
        rfl
    · -- fields
      intro k w fs hf d dI dC rest
      rw [parseFields_succ]
      have hskip : skipWs (nlInd dI ++ (encStrL k ++ (':' :: ' ' :: (dumpsL w d ++
          (fieldsRest fs d ++ (nlInd dC ++ '\x7d' :: rest)))))) =
          '"' :: (escList k.data ++ '"' :: (':' :: ' ' :: (dumpsL w d ++
            (fieldsRest fs d ++ (nlInd dC ++ '\x7d' :: rest))))) := by
        rw [skipWs_nlInd,
          show encStrL k ++ (':' :: ' ' :: (dumpsL w d ++
              (fieldsRest fs d ++ (nlInd dC ++ '\x7d' :: rest)))) =
            '"' :: (escList k.data ++ '"' :: (':' :: ' ' :: (dumpsL w d ++
              (fieldsRest fs d ++ (nlInd dC ++ '\x7d' :: rest))))) from by
            simp [encStrL],
          skipWs_not_ws _ (by decide)]
      rw [hskip, if_head_eq]
      simp only [List.tail_cons]
      rw [parseStrBody_escList]
      simp only [Option.some_bind]
      have hsk1 : skipWs (':' :: ' ' :: (dumpsL w d ++
          (fieldsRest fs d ++ (nlInd dC ++ '\x7d' :: rest)))) =
          ':' :: ' ' :: (dumpsL w d ++
            (fieldsRest fs d ++ (nlInd dC ++ '\x7d' :: rest))) :=
        skipWs_not_ws _ (by decide)
      rw [hsk1, if_head_eq]
      simp only [List.tail_cons]
      obtain ⟨c0, l0, hc0l, hcws, _, _⟩ := dumpsL_head w d
      have hsk2 : skipWs (' ' :: (dumpsL w d ++
          (fieldsRest fs d ++ (nlInd dC ++ '\x7d' :: rest)))) =
          dumpsL w d ++ (fieldsRest fs d ++ (nlInd dC ++ '\x7d' :: rest)) := by
        rw [show skipWs (' ' :: (dumpsL w d ++
            (fieldsRest fs d ++ (nlInd dC ++ '\x7d' :: rest)))) =
          skipWs (dumpsL w d ++ (fieldsRest fs d ++ (nlInd dC ++ '\x7d' :: rest)))
          from rfl]
        rw [hc0l, List.cons_append, skipWs_not_ws _ hcws, ← List.cons_append]
      rw [hsk2]
      have hsep2 : sepHead (fieldsRest fs d ++ (nlInd dC ++ '\x7d' :: rest)) := by
        cases fs with
        | nil => exact Or.inr (Or.inl rfl)
        | cons g gs => exact Or.inl rfl
      have hfw : fuelJ w ≤ f := by
        rw [show fuelF ((k, w) :: fs) = 1 + fuelJ w + fuelF fs from rfl] at hf
        omega
      rw [ihV w hfw d _ hsep2]
      simp only [Option.some_bind]
      cases fs with
      | nil =>
        have hsk3 : skipWs (fieldsRest [] d ++ (nlInd dC ++ '\x7d' :: rest)) =
            '\x7d' :: rest := by
          show skipWs (nlInd dC ++ '\x7d' :: rest) = '\x7d' :: rest
          rw [skipWs_nlInd, skipWs_not_ws _ (by decide)]
        rw [hsk3, if_head_ne (show ('\x7d' : Char) ≠ ',' by decide), if_head_eq]
        rfl
      | cons g gs =>
        have hsk3 : skipWs (fieldsRest (g :: gs) d ++ (nlInd dC ++ '\x7d' :: rest)) =
            ',' :: ((nlInd d ++ encStrL g.1 ++ ':' :: ' ' :: dumpsL g.2 d ++
              fieldsRest gs d) ++ (nlInd dC ++ '\x7d' :: rest)) := by
          rw [fieldsRest_cons, List.cons_append, skipWs_not_ws _ (by decide)]
        rw [hsk3, if_head_eq]
        simp only [List.tail_cons]
        have hfg : fuelF ((g.1, g.2) :: gs) ≤ f := by
          rw [show fuelF ((k, w) :: g :: gs) = 1 + fuelJ w + fuelF (g :: gs) from rfl] at hf
          rw [show fuelF ((g.1, g.2) :: gs) = fuelF (g :: gs) from by
            obtain ⟨a, b⟩ := g; rfl]
          omega
        rw [show ((nlInd d ++ encStrL g.1 ++ ':' :: ' ' :: dumpsL g.2 d ++
              fieldsRest gs d) ++ (nlInd dC ++ '\x7d' :: rest) : List Char) =
            nlInd d ++ (encStrL g.1 ++ (':' :: ' ' :: (dumpsL g.2 d ++
              (fieldsRest gs d ++ (nlInd dC ++ '\x7d' :: rest))))) from by simp]
        rw [ihF g.1 g.2 gs hfg d d dC rest]
        obtain ⟨a, b⟩ := g
        rfl

theorem jsonLoads_def (s : String) :
    jsonLoads s = (parseVal (s.length + 1) s.data).bind fun p =>
      if skipWs p.2 = [] then some p.1 else none := rfl

/-- `json.loads` inverts `json.dumps(..., indent=2, ensure_ascii=False)`
on every value of the model. -/
theorem jsonLoads_jsonDumps (v : Json) : jsonLoads (jsonDumps v) = some v := by
  obtain ⟨c0, l0, hc0l, hcws, _, _⟩ := dumpsL_head v 0
  have hfuel : fuelJ v ≤ (dumpsL v 0).length + 1 := by
    have := fuelJ_le_dumpsLen v 0
    omega
  have h := (roundtrip_core ((dumpsL v 0).length + 1)).1 v hfuel 0 [] trivial
  rw [List.append_nil] at h
  rw [jsonLoads_def,
    show (jsonDumps v).data = dumpsL v 0 from rfl,
    show (jsonDumps v).length = (dumpsL v 0).length from rfl,
    show parseVal ((dumpsL v 0).length + 1) (dumpsL v 0) =
      parseValCore ((dumpsL v 0).length + 1) (skipWs (dumpsL v 0)) from rfl,
    hc0l, skipWs_not_ws _ hcws, ← hc0l, h]
  rfl

example : jsonLoads (jsonDumps (.obj [("k", .str "é"), ("n", .num (-7)),
    ("a", .arr [.null, .bool true, .str "x\ny"])])) =
    some (.obj [("k", .str "é"), ("n", .num (-7)),
      ("a", .arr [.null, .bool true, .str "x\ny"])]) := rfl

/-! ## Dispatch and forwarding lemmas -/

theorem call_tool_registered (name : String) (hname : name ∈ toolNames)
    (args : List (String × Json)) (cli : List String) (remote : HttpResult) :
    call_tool name args cli remote = forwardToRemote name args cli remote := by
  simp only [toolNames, List.mem_cons, List.not_mem_nil, or_false] at hname
  rcases hname with rfl | rfl | rfl | rfl | rfl | rfl | rfl | rfl | rfl | rfl | rfl | rfl <;>
    rfl

theorem call_tool_unknown (name : String) (hname : name ∉ toolNames)
    (args : List (String × Json)) (cli : List String) (remote : HttpResult) :
    call_tool name args cli remote = ⟨[], ["Error: Unknown tool " ++ name]⟩ := by
  simp only [toolNames, List.mem_cons, List.not_mem_nil, or_false, not_or] at hname
  obtain ⟨h1, h2, h3, h4, h5, h6, h7, h8, h9, h10, h11, h12⟩ := hname
  unfold call_tool
  rw [if_neg h1, if_neg h2, if_neg h3, if_neg h4, if_neg h5, if_neg h6, if_neg h7,
    if_neg h8, if_neg h9, if_neg h10, if_neg h11, if_neg h12]

theorem apiKey_error_msg (cli : List String) (e : String)
    (h : API_KEY cli = .error e) : e = apiKeyErrorMsg := by
  cases hg : getApiKeyFromArgs cli with
  | none =>
    have hkey : API_KEY cli = .error apiKeyErrorMsg := by
      unfold API_KEY
      rw [hg]
    rw [hkey] at h
    injection h with h
    exact h.symm
  | some k =>
    by_cases hk : k = ""
    · have hkey : API_KEY cli = .error apiKeyErrorMsg := by
        unfold API_KEY
        rw [hg]
        show (if k = "" then Except.error apiKeyErrorMsg else Except.ok k) =
          Except.error apiKeyErrorMsg
        rw [if_pos hk]
      rw [hkey] at h
      injection h with h
      exact h.symm
    · have hkey : API_KEY cli = .ok k := by
        unfold API_KEY
        rw [hg]
        show (if k = "" then Except.error apiKeyErrorMsg else Except.ok k) = Except.ok k
        rw [if_neg hk]
      rw [hkey] at h
      exact absurd h (by simp)

theorem forwardToRemote_noKey (tn : String) (args : List (String × Json))
    (cli : List String) (remote : HttpResult) (e : String)
    (h : API_KEY cli = .error e) :
    forwardToRemote tn args cli remote =
      ⟨[], ["Error: " ++ e ++ " Configure API key in MCP server settings."]⟩ := by
  unfold forwardToRemote
  rw [h]

theorem forwardToRemote_success (tn : String) (args : List (String × Json))
    (cli : List String) (key : String) (fields : List (String × Json))
    (h : API_KEY cli = .ok key) :
    forwardToRemote tn args cli (.success fields) =
      ⟨[buildPayload tn args], classifyBody fields⟩ := by
  unfold forwardToRemote
  rw [h]

theorem forwardToRemote_statusError (tn : String) (args : List (String × Json))
    (cli : List String) (key : String) (code : Nat) (text : String)
    (h : API_KEY cli = .ok key) :
    forwardToRemote tn args cli (.statusError code text) =
      ⟨[buildPayload tn args], ["HTTP Error " ++ toString code ++ ": " ++ text]⟩ := by
  unfold forwardToRemote
  rw [h]

theorem forwardToRemote_exn (tn : String) (args : List (String × Json))
    (cli : List String) (key : String) (msg : String)
    (h : API_KEY cli = .ok key) :
    forwardToRemote tn args cli (.exn msg) =
      ⟨[buildPayload tn args], ["Error: " ++ msg]⟩ := by
  unfold forwardToRemote
  rw [h]

theorem classifyBody_error_obj (fields ef : List (String × Json))
    (h : lookupField fields "error" = some (.obj ef)) :
    classifyBody fields = ["API Error: " ++ errorMessageText ef] := by
  unfold classifyBody
  rw [h]

theorem classifyBody_result (fields : List (String × Json)) (r : Json)
    (h1 : lookupField fields "error" = none)
    (h2 : lookupField fields "result" = some r) :
    classifyBody fields = [jsonDumps r] := by
  unfold classifyBody
  rw [h1, h2]

theorem classifyBody_none (fields : List (String × Json))
    (h1 : lookupField fields "error" = none)
    (h2 : lookupField fields "result" = none) :
    classifyBody fields = ["No results returned from API"] := by
  unfold classifyBody
  rw [h1, h2]

theorem classifyBody_length (fields : List (String × Json)) :
    (classifyBody fields).length = 1 := by
  unfold classifyBody
  cases he : lookupField fields "error" with
  | some e => cases e <;> rfl
  | none => cases hr : lookupField fields "result" <;> rfl

theorem forwardToRemote_length (tn : String) (args : List (String × Json))
    (cli : List String) (remote : HttpResult) :
    (forwardToRemote tn args cli remote).result.length = 1 := by
  cases hA : API_KEY cli with
  | error e =>
    rw [forwardToRemote_noKey tn args cli remote e hA]
    rfl
  | ok key =>
    cases remote with
    | success fields =>
      rw [forwardToRemote_success tn args cli key fields hA]
      exact classifyBody_length fields
    | statusError code text =>
      rw [forwardToRemote_statusError tn args cli key code text hA]
      rfl
    | exn msg =>
      rw [forwardToRemote_exn tn args cli key msg hA]
      rfl

theorem errorMessageText_none (ef : List (String × Json))
    (h : lookupField ef "message" = none) : errorMessageText ef = "Unknown error" := by
  unfold errorMessageText
  rw [h]
  rfl

theorem errorMessageText_str (ef : List (String × Json)) (M : String)
    (h : lookupField ef "message" = some (.str M)) : errorMessageText ef = M := by
  unfold errorMessageText
  rw [h]
  rfl

/-! ## Claim theorems -/

/-- C1: for every tool invocation that reaches the forwarding step, the
outbound JSON-RPC envelope has the constant protocol version "2.0", the
constant request id 1, the constant method "tools/call", `params.name`
equal to the tool's remote-call name, and `params.arguments` equal to the
caller-supplied argument bag forwarded verbatim. -/
theorem claim1_envelope_verbatim (name : String) (args : List (String × Json))
    (cli : List String) (key : String) (remote : HttpResult)
    (hname : name ∈ toolNames) (hkey : API_KEY cli = .ok key) :
    (call_tool name args cli remote).networkCalls = [buildPayload name args] ∧
    buildPayload name args = .obj [("jsonrpc", .str "2.0"), ("id", .num 1),
      ("method", .str "tools/call"),
      ("params", .obj [("name", .str name), ("arguments", .obj args)])] := by
  rw [call_tool_registered name hname]
  refine ⟨?_, rfl⟩
  cases remote with
  | success fields => rw [forwardToRemote_success _ _ _ key fields hkey]
  | statusError code text => rw [forwardToRemote_statusError _ _ _ key code text hkey]
  | exn msg => rw [forwardToRemote_exn _ _ _ key msg hkey]

/-- Witness for C1: the concrete content-search scenario with a
string-valued OData `filter` argument, forwarded byte-for-byte. -/
theorem claim1_witness :
    ("pia_search_content" ∈ toolNames) ∧
    API_KEY ["--api-key", "k"] = .ok "k" ∧
    ((call_tool "pia_search_content"
        [("query", Json.str "ambulance fraud"), ("filter", Json.str "data_source eq 'GAO'")]
        ["--api-key", "k"] (.success [("result", .null)])).networkCalls =
      [buildPayload "pia_search_content"
        [("query", Json.str "ambulance fraud"),
         ("filter", Json.str "data_source eq 'GAO'")]] ∧
      buildPayload "pia_search_content"
        [("query", Json.str "ambulance fraud"), ("filter", Json.str "data_source eq 'GAO'")] =
      .obj [("jsonrpc", .str "2.0"), ("id", .num 1), ("method", .str "tools/call"),
        ("params", .obj [("name", .str "pia_search_content"),
          ("arguments", .obj [("query", Json.str "ambulance fraud"),
            ("filter", Json.str "data_source eq 'GAO'")])])]) :=
  ⟨by decide, rfl,
    claim1_envelope_verbatim "pia_search_content"
      [("query", Json.str "ambulance fraud"), ("filter", Json.str "data_source eq 'GAO'")]
      ["--api-key", "k"] "k" (.success [("result", .null)]) (by decide) rfl⟩

/-- C2: when API-key resolution fails, `call_tool` performs zero network
calls and returns a single text outcome whose text contains
"API key is required". -/
theorem claim2_missing_key (name : String) (args : List (String × Json))
    (cli : List String) (remote : HttpResult) (e : String)
    (hname : name ∈ toolNames) (hkey : API_KEY cli = .error e) :
    (call_tool name args cli remote).networkCalls = [] ∧
    ∃ t pre post, (call_tool name args cli remote).result = [t] ∧
      t.data = pre ++ "API key is required".data ++ post := by
  have he := apiKey_error_msg cli e hkey
  subst he
  rw [call_tool_registered name hname, forwardToRemote_noKey name args cli remote _ hkey]
  exact ⟨rfl, "Error: " ++ apiKeyErrorMsg ++ " Configure API key in MCP server settings.",
    "Error: PIA ".data,
    ". Please provide --api-key argument. Configure API key in MCP server settings.".data,
    rfl, by decide⟩

/-- Witness for C2: a call with empty command-line arguments. -/
theorem claim2_witness :
    ("search" ∈ toolNames) ∧ API_KEY [] = .error apiKeyErrorMsg ∧
    ((call_tool "search" [] [] (.exn "unused")).networkCalls = [] ∧
      ∃ t pre post, (call_tool "search" [] [] (.exn "unused")).result = [t] ∧
        t.data = pre ++ "API key is required".data ++ post) :=
  ⟨by decide, rfl,
    claim2_missing_key "search" [] [] (.exn "unused") apiKeyErrorMsg (by decide) rfl⟩

/-- C3: every invocation returns exactly one text content block and never
propagates an exception; an exception during forwarding is rendered as
"Error: {message}". -/
theorem claim3_single_block_no_throw (name : String) (args : List (String × Json))
    (cli : List String) (remote : HttpResult) :
    (call_tool name args cli remote).result.length = 1 ∧
    (∀ key msg, name ∈ toolNames → API_KEY cli = .ok key → remote = .exn msg →
      (call_tool name args cli remote).result = ["Error: " ++ msg]) := by
  constructor
  · by_cases hname : name ∈ toolNames
    · rw [call_tool_registered name hname]
      exact forwardToRemote_length name args cli remote
    · rw [call_tool_unknown name hname]
      rfl
  · intro key msg hname hkey hremote
    subst hremote
    rw [call_tool_registered name hname, forwardToRemote_exn name args cli key msg hkey]

/-- Witness for C3: a forwarding exception rendered as a single
"Error: ..." block. -/
theorem claim3_witness :
    ((call_tool "fetch" [] ["--api-key", "k"] (.exn "boom")).result.length = 1) ∧
    ("fetch" ∈ toolNames) ∧ API_KEY ["--api-key", "k"] = .ok "k" ∧
    (call_tool "fetch" [] ["--api-key", "k"] (.exn "boom")).result = ["Error: boom"] :=
  ⟨(claim3_single_block_no_throw "fetch" [] ["--api-key", "k"] (.exn "boom")).1,
    by decide, rfl,
    (claim3_single_block_no_throw "fetch" [] ["--api-key", "k"] (.exn "boom")).2
      "k" "boom" (by decide) rfl rfl⟩

/-- C4: a 2xx response whose body has `error.message = M` yields the text
"API Error: " ++ M. -/
theorem claim4_api_error_text (name : String) (args : List (String × Json))
    (cli : List String) (key : String) (fields ef : List (String × Json)) (M : String)
    (hname : name ∈ toolNames) (hkey : API_KEY cli = .ok key)
    (herr : lookupField fields "error" = some (.obj ef))
    (hmsg : lookupField ef "message" = some (.str M)) :
    (call_tool name args cli (.success fields)).result = ["API Error: " ++ M] := by
  rw [call_tool_registered name hname,
    forwardToRemote_success name args cli key fields hkey]
  show classifyBody fields = _
  rw [classifyBody_error_obj fields ef herr, errorMessageText_str ef M hmsg]

/-- Witness for C4: the error body used in the repository's own tests. -/
theorem claim4_witness :
    ("pia_search_content" ∈ toolNames) ∧
    API_KEY ["--api-key", "k"] = .ok "k" ∧
    lookupField [("jsonrpc", Json.str "2.0"), ("id", Json.num 1),
      ("error", Json.obj [("code", Json.num (-32000)),
        ("message", Json.str "Invalid API key")])] "error" =
      some (Json.obj [("code", Json.num (-32000)), ("message", Json.str "Invalid API key")]) ∧
    (call_tool "pia_search_content" [("query", Json.str "test")] ["--api-key", "k"]
        (.success [("jsonrpc", Json.str "2.0"), ("id", Json.num 1),
          ("error", Json.obj [("code", Json.num (-32000)),
            ("message", Json.str "Invalid API key")])])).result =
      ["API Error: Invalid API key"] :=
  ⟨by decide, rfl, rfl,
    claim4_api_error_text "pia_search_content" [("query", Json.str "test")]
      ["--api-key", "k"] "k" _ _ "Invalid API key" (by decide) rfl rfl rfl⟩

/-- C5 counterexample: a 2xx body with neither `result` nor `error`
yields the literal text "No results returned from API", which does not
carry the "Error:" prefix and is not "Error: no result returned". -/
theorem claim5_counterexample :
    (call_tool "pia_search_content" [("query", Json.str "q")] ["--api-key", "k"]
        (.success [])).result = ["No results returned from API"] ∧
    ("Error:".data.isPrefixOf "No results returned from API".data) = false ∧
    "No results returned from API" ≠ "Error: no result returned" :=
  ⟨rfl, by decide, by decide⟩

/-- C5 amended: when a 2xx body contains neither a `result` nor an
`error` member, `call_tool` returns the literal text
"No results returned from API" (no "Error:" prefix, no LocalError
classification). -/
theorem claim5_amended_no_results (name : String) (args : List (String × Json))
    (cli : List String) (key : String) (fields : List (String × Json))
    (hname : name ∈ toolNames) (hkey : API_KEY cli = .ok key)
    (h1 : lookupField fields "error" = none)
    (h2 : lookupField fields "result" = none) :
    (call_tool name args cli (.success fields)).result =
      ["No results returned from API"] := by
  rw [call_tool_registered name hname,
    forwardToRemote_success name args cli key fields hkey]
  show classifyBody fields = _
  exact classifyBody_none fields h1 h2

/-- Witness for the amended C5. -/
theorem claim5_witness :
    ("pia_search_titles" ∈ toolNames) ∧
    API_KEY ["--api-key", "k"] = .ok "k" ∧
    lookupField [("jsonrpc", Json.str "2.0")] "error" = none ∧
    lookupField [("jsonrpc", Json.str "2.0")] "result" = none ∧
    (call_tool "pia_search_titles" [] ["--api-key", "k"]
        (.success [("jsonrpc", Json.str "2.0")])).result =
      ["No results returned from API"] :=
  ⟨by decide, rfl, rfl, rfl,
    claim5_amended_no_results "pia_search_titles" [] ["--api-key", "k"] "k"
      [("jsonrpc", Json.str "2.0")] (by decide) rfl rfl rfl⟩

/-- C6: an unregistered tool name yields the handled text
"Error: Unknown tool {name}" and zero network calls. -/
theorem claim6_unknown_tool (name : String) (args : List (String × Json))
    (cli : List String) (remote : HttpResult) (h : name ∉ toolNames) :
    call_tool name args cli remote =
      ⟨[], ["Error: Unknown tool " ++ name]⟩ :=
  call_tool_unknown name h args cli remote

/-- Witness for C6: the spec's concrete scenario
`call_tool("nonexistent_tool_xyz", {})`. -/
theorem claim6_witness :
    ("nonexistent_tool_xyz" ∉ toolNames) ∧
    call_tool "nonexistent_tool_xyz" [] ["--api-key", "k"] (.exn "unused") =
      ⟨[], ["Error: Unknown tool nonexistent_tool_xyz"]⟩ :=
  ⟨by decide,
    claim6_unknown_tool "nonexistent_tool_xyz" [] ["--api-key", "k"] (.exn "unused")
      (by decide)⟩

/-- The prompt-catalog scan returns `none` when no entry's name matches. -/
theorem lookupPrompt_none (name : String) (l : List (String × String))
    (h : ∀ p ∈ l, p.1 ≠ name) : get_prompt.lookupPrompt name l = none := by
  induction l with
  | nil => rfl
  | cons p rest ih =>
    obtain ⟨n, dd⟩ := p
    have hn := h (n, dd) (by simp)
    show (if n = name then some dd else get_prompt.lookupPrompt name rest) = none
    rw [if_neg hn]
    exact ih fun q hq => h q (by simp [hq])

/-- C7 counterexample: an unknown prompt name makes `get_prompt` raise
`ValueError` (modelled as `Except.error`) instead of returning a handled
text outcome. -/
theorem claim7_counterexample :
    get_prompt "nonexistent_prompt" [] =
      .error "Prompt 'nonexistent_prompt' not found" := rfl

/-- C7 amended: for every prompt name absent from `AVAILABLE_PROMPTS`,
`get_prompt` raises `ValueError("Prompt '{name}' not found")` — the
exception propagates past the prompt handler rather than being rendered
as an error text outcome. -/
theorem claim7_amended_raises (name : String) (args : List (String × String))
    (h : ∀ p ∈ AVAILABLE_PROMPTS, p.1 ≠ name) :
    get_prompt name args = .error ("Prompt '" ++ name ++ "' not found") := by
  unfold get_prompt
  rw [lookupPrompt_none name AVAILABLE_PROMPTS h]

/-- Witness for the amended C7, at the spec's own "search_guidance"
name, which is absent from the catalog. -/
theorem claim7_witness :
    (∀ p ∈ AVAILABLE_PROMPTS, p.1 ≠ "search_guidance") ∧
    get_prompt "search_guidance" [("unused", "arg")] =
      .error "Prompt 'search_guidance' not found" :=
  ⟨by decide, claim7_amended_raises "search_guidance" [("unused", "arg")] (by decide)⟩

/-- C8 counterexample: "search_guidance" is not in the prompt catalog, so
`get_prompt("search_guidance", {})` raises `ValueError` instead of
returning template text. -/
theorem claim8_counterexample :
    get_prompt "search_guidance" [] = .error "Prompt 'search_guidance' not found" := rfl

/-- C8 amended: the catalog's content-search prompt,
`get_prompt("content_search_guidance", {})`, returns non-empty static
template text; no substitution is performed, and the text is the same
for every argument bag, so no unresolved placeholders remain. -/
theorem claim8_amended_content_guidance :
    (∃ r, get_prompt "content_search_guidance" [] = .ok r ∧
      r.messages = [("user", generate_content_search_guidance)]) ∧
    generate_content_search_guidance ≠ "" ∧
    (∀ args, get_prompt "content_search_guidance" args =
      get_prompt "content_search_guidance" []) :=
  ⟨⟨⟨"Provides guidance on how to perform PIA content searches with or without filters",
      [("user", generate_content_search_guidance)]⟩, rfl, rfl⟩,
    by decide, fun _ => rfl⟩

/-- C9: a 2xx body with `result = R` makes `call_tool` return exactly the
pretty-printed rendering of `R`; that rendering parses back to `R`
(losslessly, key order preserved), and every non-control character other
than the quote and backslash — in particular all non-ASCII — is emitted
unescaped. -/
theorem claim9_roundtrip (name : String) (args : List (String × Json))
    (cli : List String) (key : String) (fields : List (String × Json)) (R : Json)
    (hname : name ∈ toolNames) (hkey : API_KEY cli = .ok key)
    (herr : lookupField fields "error" = none)
    (hres : lookupField fields "result" = some R) :
    (call_tool name args cli (.success fields)).result = [jsonDumps R] ∧
    jsonLoads (jsonDumps R) = some R ∧
    (∀ c : Char, 0x20 ≤ c.toNat → c ≠ '"' → c ≠ '\\' → escCharL c = [c]) := by
  refine ⟨?_, jsonLoads_jsonDumps R, ?_⟩
  · rw [call_tool_registered name hname,
      forwardToRemote_success name args cli key fields hkey]
    show classifyBody fields = _
    exact classifyBody_result fields R herr hres
  · intro c h32 hq hb
    have hn : c ≠ '\n' := fun he => by
      rw [he] at h32
      exact absurd h32 (by decide)
    have hr : c ≠ '\r' := fun he => by
      rw [he] at h32
      exact absurd h32 (by decide)
    have ht : c ≠ '\t' := fun he => by
      rw [he] at h32
      exact absurd h32 (by decide)
    have h8 : c ≠ '\x08' := fun he => by
      rw [he] at h32
      exact absurd h32 (by decide)
    have hc : c ≠ '\x0c' := fun he => by
      rw [he] at h32
      exact absurd h32 (by decide)
    unfold escCharL
    rw [if_neg hq, if_neg hb, if_neg hn, if_neg hr, if_neg ht, if_neg h8, if_neg hc,
      if_neg (by omega)]

/-- Witness for C9: a result payload with non-ASCII content, negative
number, and nesting; the printed text parses back to the same value. -/
theorem claim9_witness :
    ("search" ∈ toolNames) ∧
    API_KEY ["--api-key", "k"] = .ok "k" ∧
    lookupField [("result", Json.obj [("k", Json.str "é"), ("n", Json.num (-7))])]
      "error" = none ∧
    lookupField [("result", Json.obj [("k", Json.str "é"), ("n", Json.num (-7))])]
      "result" = some (Json.obj [("k", Json.str "é"), ("n", Json.num (-7))]) ∧
    ((call_tool "search" [] ["--api-key", "k"]
        (.success [("result", Json.obj [("k", Json.str "é"), ("n", Json.num (-7))])])).result =
      [jsonDumps (Json.obj [("k", Json.str "é"), ("n", Json.num (-7))])] ∧
      jsonLoads (jsonDumps (Json.obj [("k", Json.str "é"), ("n", Json.num (-7))])) =
        some (Json.obj [("k", Json.str "é"), ("n", Json.num (-7))]) ∧
      (∀ c : Char, 0x20 ≤ c.toNat → c ≠ '"' → c ≠ '\\' → escCharL c = [c])) :=
  ⟨by decide, rfl, rfl, rfl,
    claim9_roundtrip "search" [] ["--api-key", "k"] "k"
      [("result", Json.obj [("k", Json.str "é"), ("n", Json.num (-7))])]
      (Json.obj [("k", Json.str "é"), ("n", Json.num (-7))]) (by decide) rfl rfl rfl⟩

/-- C10: when a 2xx body contains both an `error` member and a `result`
member, the error classification wins: the outcome is the
"API Error: ..." text (with "Unknown error" when the error object has no
`message` field), and the `result` value is never rendered. -/
theorem claim10_error_precedence (name : String) (args : List (String × Json))
    (cli : List String) (key : String) (fields ef : List (String × Json)) (r : Json)
    (hname : name ∈ toolNames) (hkey : API_KEY cli = .ok key)
    (herr : lookupField fields "error" = some (.obj ef))
    (_hres : lookupField fields "result" = some r) :
    (call_tool name args cli (.success fields)).result =
      ["API Error: " ++ errorMessageText ef] ∧
    (lookupField ef "message" = none →
      (call_tool name args cli (.success fields)).result =
        ["API Error: Unknown error"]) := by
  have hmain : (call_tool name args cli (.success fields)).result =
      ["API Error: " ++ errorMessageText ef] := by
    rw [call_tool_registered name hname,
      forwardToRemote_success name args cli key fields hkey]
    show classifyBody fields = _
    exact classifyBody_error_obj fields ef herr
  exact ⟨hmain, fun hm => by rw [hmain, errorMessageText_none ef hm]; rfl⟩

/-- Witness for C10: both members present, message absent — the result is
never rendered and the default "Unknown error" text is used. -/
theorem claim10_witness :
    ("fetch" ∈ toolNames) ∧
    API_KEY ["--api-key", "k"] = .ok "k" ∧
    lookupField [("error", Json.obj [("code", Json.num 1)]),
      ("result", Json.str "never rendered")] "error" = some (Json.obj [("code", Json.num 1)]) ∧
    lookupField [("error", Json.obj [("code", Json.num 1)]),
      ("result", Json.str "never rendered")] "result" = some (Json.str "never rendered") ∧
    lookupField [("code", Json.num 1)] "message" = none ∧
    (call_tool "fetch" [] ["--api-key", "k"]
        (.success [("error", Json.obj [("code", Json.num 1)]),
          ("result", Json.str "never rendered")])).result =
      ["API Error: Unknown error"] :=
  ⟨by decide, rfl, rfl, rfl, rfl,
    (claim10_error_precedence "fetch" [] ["--api-key", "k"] "k"
      [("error", Json.obj [("code", Json.num 1)]), ("result", Json.str "never rendered")]
      [("code", Json.num 1)] (Json.str "never rendered") (by decide) rfl rfl rfl).2 rfl⟩
